import Mathlib

/-! # SplitSmart front end: a verification development

Shallow embedding of `src/App.js` (the React client of SplitSmart) together with the
balance ledger, the balance calculator and the debt simplifier that the client talks to.

* Part I embeds the JavaScript of `src/App.js`: the numbers that `parseFloat` and `parseInt`
  return (IEEE binary64, kept as sign, integer significand and binary exponent), the two
  modal forms `AddExpenseModal` and `SettleModal`, and `api.request`.
* Part II models the server-side core (Ledger, BalanceCalculator, DebtSimplifier).  That code
  is not part of `src/`; every definition there is written from the specification and says so.
-/

set_option autoImplicit false

namespace SplitSmart

/-! ## Part I. JavaScript numbers -/

/-- A JavaScript Number: `NaN`, an infinity, or the finite binary64 value
`(-1)^neg * mant * 2^exp`.  Values produced by `toBinary64` are canonical:
`2^52 ≤ mant < 2^53` with `-1074 ≤ exp ≤ 971` (normal), or `mant < 2^52` with
`exp = -1074` (subnormal and the two zeros). -/
inductive JSNumber where
  | nan
  | inf (neg : Bool)
  | finite (neg : Bool) (mant : Nat) (exp : Int)
  deriving DecidableEq, Repr

namespace JSNumber

/-- The test `Number.isInteger`: finite and without fractional part. -/
def isInteger : JSNumber → Bool
  | finite _ m e => if 0 ≤ e then true else decide (m % 2 ^ (-e).toNat = 0)
  | _ => false

/-- The comparison `x > 0`. -/
def isPositive : JSNumber → Bool
  | nan => false
  | inf neg => !neg
  | finite neg m _ => !neg && decide (0 < m)

/-- The rational number a finite Number denotes. -/
def toRat : JSNumber → Option ℚ
  | finite neg m e => some ((if neg then -1 else 1) * (m : ℚ) * (2 : ℚ) ^ e)
  | _ => none

end JSNumber

/-- Floor of the binary logarithm, by repeated halving (`fuel` bounds the number of halvings). -/
def ilog2Aux : Nat → Nat → Nat
  | 0, _ => 0
  | fuel + 1, n => if n < 2 then 0 else ilog2Aux fuel (n / 2) + 1

/-- Floor of the binary logarithm of `n` (and `0` for `n = 0`). -/
def ilog2 (n : Nat) : Nat := ilog2Aux n n

/-- The integer nearest to `num / den`, ties going to the even neighbour. -/
def roundHalfEven (num den : Nat) : Nat :=
  let q := num / den
  let r := num % den
  if 2 * r < den then q
  else if den < 2 * r then q + 1
  else if q % 2 = 0 then q else q + 1

/-- The integer nearest to `(a / b) / 2^s`, ties to even. -/
def scaledSignificand (a b : Nat) (s : Int) : Nat :=
  if 0 ≤ s then roundHalfEven a (b * 2 ^ s.toNat) else roundHalfEven (a * 2 ^ (-s).toNat) b

/-- The binary exponent of the positive rational `a / b`: the `e` with `2^e ≤ a / b < 2^(e+1)`. -/
def floorLog2 (a b : Nat) : Int :=
  let e0 : Int := (ilog2 a : Int) - (ilog2 b : Int)
  if (if 0 ≤ e0 then b * 2 ^ e0.toNat ≤ a else b ≤ a * 2 ^ (-e0).toNat) then e0 else e0 - 1

/-- The Number value of the mathematical value `± a / b` (ECMAScript `𝔽`): IEEE 754 binary64,
round to nearest, ties to even, overflow to infinity, gradual underflow, signed zero. -/
def toBinary64 (neg : Bool) (a b : Nat) : JSNumber :=
  if a = 0 then .finite neg 0 (-1074)
  else
    let e := max (floorLog2 a b) (-1022)
    let s := e - 52
    let m := scaledSignificand a b s
    let ms : Nat × Int := if m = 2 ^ 53 then (2 ^ 52, s + 1) else (m, s)
    if 971 < ms.2 then .inf neg else .finite neg ms.1 ms.2

/-! ### Lexing of numeric strings -/

/-- ECMAScript `WhiteSpace` and `LineTerminator` code points (what `TrimString` removes). -/
def isJSWhiteSpace (c : Char) : Bool :=
  let n := c.toNat
  n = 0x09 ∨ n = 0x0A ∨ n = 0x0B ∨ n = 0x0C ∨ n = 0x0D ∨ n = 0x20 ∨ n = 0xA0 ∨ n = 0x1680 ∨
  (0x2000 ≤ n ∧ n ≤ 0x200A) ∨ n = 0x2028 ∨ n = 0x2029 ∨ n = 0x202F ∨ n = 0x205F ∨
  n = 0x3000 ∨ n = 0xFEFF

/-- A decimal digit `0`..`9`. -/
def isDecimalDigit (c : Char) : Bool := 48 ≤ c.toNat ∧ c.toNat ≤ 57

/-- The value of a run of decimal digits, most significant first. -/
def digitsValue (ds : List Char) : Nat :=
  ds.foldl (fun acc c => 10 * acc + (c.toNat - 48)) 0

/-- The optional sign of a numeric literal: whether it is `-`, and the rest of the input. -/
def takeSign : List Char → Bool × List Char
  | '-' :: rest => (true, rest)
  | '+' :: rest => (false, rest)
  | cs => (false, cs)

/-- The `ExponentPart` at the head of the input, if there is one: `e` or `E`, an optional
sign, and at least one digit.  Anything else is no exponent (value `0`). -/
def exponentPart : List Char → Int
  | c :: rest =>
    if c = 'e' ∨ c = 'E' then
      let sr := takeSign rest
      let ds := sr.2.takeWhile isDecimalDigit
      if ds = [] then 0 else if sr.1 then -(digitsValue ds : Int) else (digitsValue ds : Int)
    else 0
  | [] => 0

/-- The Number for the decimal `± d * 10^k`. -/
def decimalToNumber (neg : Bool) (d : Nat) (k : Int) : JSNumber :=
  if 0 ≤ k then toBinary64 neg (d * 10 ^ k.toNat) 1 else toBinary64 neg d (10 ^ (-k).toNat)

/-- The global `parseFloat` (ECMAScript 19.2.4): leading white space is dropped, the longest
prefix that is a `StrDecimalLiteral` is read, and its Number value is returned; `NaN` when no
prefix is such a literal. -/
def parseFloat (input : String) : JSNumber :=
  let trimmed := input.toList.dropWhile isJSWhiteSpace
  let sr := takeSign trimmed
  let neg := sr.1
  let body := sr.2
  if "Infinity".toList.isPrefixOf body then .inf neg
  else
    let intDigits := body.takeWhile isDecimalDigit
    let afterInt := body.dropWhile isDecimalDigit
    match afterInt with
    | '.' :: afterDot =>
      let fracDigits := afterDot.takeWhile isDecimalDigit
      let afterFrac := afterDot.dropWhile isDecimalDigit
      if intDigits = [] ∧ fracDigits = [] then .nan
      else decimalToNumber neg (digitsValue (intDigits ++ fracDigits))
        (exponentPart afterFrac - (fracDigits.length : Int))
    | _ =>
      if intDigits = [] then .nan
      else decimalToNumber neg (digitsValue intDigits) (exponentPart afterInt)

/-- A hexadecimal digit. -/
def isHexDigit (c : Char) : Bool :=
  isDecimalDigit c ∨ (97 ≤ c.toNat ∧ c.toNat ≤ 102) ∨ (65 ≤ c.toNat ∧ c.toNat ≤ 70)

/-- The value of one hexadecimal digit. -/
def hexDigitValue (c : Char) : Nat :=
  if isDecimalDigit c then c.toNat - 48
  else if 97 ≤ c.toNat then c.toNat - 87 else c.toNat - 55

/-- The global `parseInt` called with one argument (ECMAScript 19.2.5, radix undefined):
leading white space and a sign are read, a `0x`/`0X` prefix selects radix 16 and otherwise the
radix is 10, the longest run of digits of that radix is read; `NaN` when that run is empty. -/
def parseInt (input : String) : JSNumber :=
  let trimmed := input.toList.dropWhile isJSWhiteSpace
  let sr := takeSign trimmed
  match sr.2 with
  | '0' :: x :: rest =>
    if x = 'x' ∨ x = 'X' then
      let ds := rest.takeWhile isHexDigit
      if ds = [] then .nan
      else toBinary64 sr.1 (ds.foldl (fun acc c => 16 * acc + hexDigitValue c) 0) 1
    else toBinary64 sr.1 (digitsValue (sr.2.takeWhile isDecimalDigit)) 1
  | body =>
    let ds := body.takeWhile isDecimalDigit
    if ds = [] then .nan else toBinary64 sr.1 (digitsValue ds) 1

/-! ## JSON values, errors and `api.request` -/

/-- A value produced by `response.json()`.  An object is the list of its own properties, each
key once, in insertion order. -/
inductive Json where
  | null
  | bool (b : Bool)
  | num (n : JSNumber)
  | str (s : String)
  | arr (items : List Json)
  | obj (fields : List (String × Json))

deriving instance DecidableEq for Except

/-- A thrown JavaScript error: the constructor's name and the `message`. -/
structure JSError where
  name : String
  message : String
  deriving DecidableEq, Repr

/-- The `TypeError` of reading a property of `null`. -/
def nullPropertyError : JSError :=
  ⟨"TypeError", "Cannot read properties of null (reading 'detail')"⟩

/-- The `TypeError` of `ToPrimitive` on an object none of whose `toString`/`valueOf` yields a
primitive. -/
def toPrimitiveError : JSError :=
  ⟨"TypeError", "Cannot convert object to primitive value"⟩

namespace Json

/-- JavaScript `ToBoolean` on a parsed value. -/
def truthy : Json → Bool
  | null => false
  | bool b => b
  | num (.finite _ m _) => decide (m ≠ 0)
  | num .nan => false
  | num (.inf _) => true
  | str s => decide (s ≠ "")
  | arr _ => true
  | obj _ => true

/-- The expression `v.detail`: `none` is `undefined`.  Reading a property of `null` throws;
primitives and arrays have no property of that name. -/
def detail : Json → Except JSError (Option Json)
  | null => .error nullPropertyError
  | obj fields => .ok (fields.lookup "detail")
  | _ => .ok none

mutual
/-- JavaScript `ToString` on a parsed value.  Arrays go through `Array.prototype.join`, plain
objects through `Object.prototype.toString` unless an own, non-callable `toString` property
shadows it, in which case `ToPrimitive` throws. -/
def toJSString (numberToString : JSNumber → String) : Json → Except JSError String
  | null => .ok "null"
  | bool b => .ok (if b then "true" else "false")
  | num n => .ok (numberToString n)
  | str s => .ok s
  | arr items => joinItems numberToString items
  | obj fields =>
    if (fields.lookup "toString").isSome then .error toPrimitiveError else .ok "[object Object]"
/-- The body of `Array.prototype.join` with the separator `","`: `null` elements give the
empty string. -/
def joinItems (numberToString : JSNumber → String) : List Json → Except JSError String
  | [] => .ok ""
  | [x] => match x with
    | null => .ok ""
    | v => toJSString numberToString v
  | x :: y :: rest =>
    match (match x with | null => Except.ok "" | v => toJSString numberToString v) with
    | .error e => .error e
    | .ok sx =>
      match joinItems numberToString (y :: rest) with
      | .error e => .error e
      | .ok sr => .ok (sx ++ "," ++ sr)
end

end Json

/-- What `fetch` resolves with, as far as `api.request` looks at it: the `ok` flag and the
outcome of `response.json()` (an error when the body is not JSON). -/
structure Response where
  ok : Bool
  json : Except JSError Json

/-- The data object `AddExpenseModal.handleSubmit` hands to `api.addExpense`. -/
structure ExpenseData where
  group_id : Nat
  amount : JSNumber
  description : String
  split_between : List Nat
  deriving DecidableEq, Repr

/-- The data object `SettleModal.handleSubmit` hands to `api.settleUp`. -/
structure SettleData where
  group_id : Nat
  to_user_id : JSNumber
  amount : JSNumber
  deriving DecidableEq, Repr

/-- The data object of `api.login` (line 78): `{ email, password }`. -/
structure LoginData where
  email : String
  password : String
  deriving DecidableEq, Repr

/-- The data object of `api.register` (line 89): `{ name, email, password }`. -/
structure RegisterData where
  name : String
  email : String
  password : String
  deriving DecidableEq, Repr

/-- The data object of `api.createGroup` (line 363): `{ name: groupName }`. -/
structure GroupData where
  name : String
  deriving DecidableEq, Repr

/-- The data object of `api.addMember` (line 754): `{ user_id: userId }`. -/
structure AddMemberData where
  user_id : Nat
  deriving DecidableEq, Repr

/-- The argument of `JSON.stringify` in a request body. -/
inductive Payload where
  | addExpense (data : ExpenseData)
  | settleUp (data : SettleData)
  | login (data : LoginData)
  | register (data : RegisterData)
  | createGroup (data : GroupData)
  | addMember (data : AddMemberData)
  deriving DecidableEq, Repr

/-- The `options` argument of `api.request`. -/
structure RequestInit where
  method : Option String := none
  body : Option Payload := none
  headers : List (String × String) := []
  deriving DecidableEq, Repr

/-- One call of `fetch`: the URL and the init object. -/
structure FetchCall where
  url : String
  method : Option String
  body : Option Payload
  headers : List (String × String)
  deriving DecidableEq, Repr

/-- What the page's code reads from its surroundings: `Number::toString`, the network behind
`fetch` (an error is a rejected promise) and the `token` entry of `localStorage`. -/
structure Browser where
  numberToString : JSNumber → String
  fetch : FetchCall → Except JSError Response
  token : Option String

/-- The constant `API_BASE`. -/
def API_BASE : String := "https://splitsmart-backend-iay2.onrender.com"

/-- Object spread of header lists: a later entry replaces the value of an equal key. -/
def spreadHeaders (base extra : List (String × String)) : List (String × String) :=
  extra.foldl (fun acc kv =>
    if acc.any (fun p => p.1 = kv.1) then acc.map (fun p => if p.1 = kv.1 then (p.1, kv.2) else p)
    else acc ++ [kv]) base

namespace api

/-- The headers `api.request` builds. -/
def headers (token : Option String) (options : RequestInit) : List (String × String) :=
  let auth : List (String × String) :=
    match token with
    | some t => if t ≠ "" then [("Authorization", "Bearer " ++ t)] else []
    | none => []
  spreadHeaders (spreadHeaders [("Content-Type", "application/json")] auth) options.headers

/-- The `fetch` call `api.request` makes. -/
def fetchCall (token : Option String) (endpoint : String) (options : RequestInit) : FetchCall :=
  { url := API_BASE ++ endpoint, method := options.method, body := options.body,
    headers := headers token options }

/-- The handling of a response by `api.request` (lines 32-38). -/
def handleResponse (numberToString : JSNumber → String) (response : Response) :
    Except JSError Json :=
  if !response.ok then
    let error : Json := match response.json with
      | .ok v => v
      | .error _ => .obj []
    match error.detail with
    | .error e => .error e
    | .ok d =>
      match (match d with
        | some v => if v.truthy then v.toJSString numberToString else Except.ok "Request failed"
        | none => Except.ok "Request failed") with
      | .error e => .error e
      | .ok message => .error ⟨"Error", message⟩
  else response.json

/-- The function `api.request(endpoint, options)`. -/
def request (env : Browser) (endpoint : String) (options : RequestInit := {}) :
    Except JSError Json :=
  match env.fetch (fetchCall env.token endpoint options) with
  | .error e => .error e
  | .ok response => handleResponse env.numberToString response

/-- The call `api.addExpense(data)`. -/
def addExpense (env : Browser) (data : ExpenseData) : Except JSError Json :=
  request env "/expenses" { method := some "POST", body := some (.addExpense data) }

/-- The call `api.settleUp(data)`. -/
def settleUp (env : Browser) (data : SettleData) : Except JSError Json :=
  request env "/settle" { method := some "POST", body := some (.settleUp data) }

end api

/-! ## The modal forms -/

/-- A group member as the client receives it. -/
structure Member where
  id : Nat
  name : String
  deriving DecidableEq, Repr

/-- What a submit handler does that can be seen from outside, in order: a `fetch` call, the
`onSuccess` callback, an `alert`. -/
inductive UIEvent where
  | fetch (call : FetchCall)
  | onSuccess
  | alert (message : String)
  deriving DecidableEq, Repr

/-- The state `formData` of `AddExpenseModal`. -/
structure AddExpenseForm where
  amount : String
  description : String
  split_between : List Nat
  deriving DecidableEq, Repr

namespace AddExpenseModal

/-- The initial `formData` (lines 657-661). -/
def initialFormData (members : List Member) : AddExpenseForm :=
  { amount := "", description := "", split_between := members.map (fun m => m.id) }

/-- The data object built at lines 666-671. -/
def requestData (groupId : Nat) (formData : AddExpenseForm) : ExpenseData :=
  { group_id := groupId, amount := parseFloat formData.amount,
    description := formData.description, split_between := formData.split_between }

/-- The handler `handleSubmit` (lines 663-676). -/
def handleSubmit (env : Browser) (groupId : Nat) (formData : AddExpenseForm) : List UIEvent :=
  if formData.amount = "" ∨ formData.description = "" ∨ formData.split_between.length = 0 then []
  else
    let data := requestData groupId formData
    let sent := UIEvent.fetch (api.fetchCall env.token "/expenses"
      { method := some "POST", body := some (.addExpense data) })
    match api.addExpense env data with
    | .ok _ => [sent, .onSuccess]
    | .error err => [sent, .alert err.message]

/-- The `onChange` handler of the checkbox of `member` (lines 706-712); `checked` is
`e.target.checked`. -/
def onChange (member : Member) (checked : Bool) (formData : AddExpenseForm) : AddExpenseForm :=
  if checked then
    { formData with split_between := formData.split_between ++ [member.id] }
  else
    { formData with split_between := formData.split_between.filter (fun id => id ≠ member.id) }

/-- The `checked` attribute of the checkbox of `member` (line 705). -/
def checked (member : Member) (formData : AddExpenseForm) : Bool :=
  formData.split_between.contains member.id

/-- A click on the checkbox of `member`: the browser flips the box and reports the new state
to `onChange`. -/
def toggle (formData : AddExpenseForm) (member : Member) : AddExpenseForm :=
  onChange member (!checked member formData) formData

end AddExpenseModal

/-- The state `formData` of `SettleModal`. -/
structure SettleForm where
  to_user_id : String
  amount : String
  deriving DecidableEq, Repr

namespace SettleModal

/-- The data object built at lines 823-827. -/
def requestData (groupId : Nat) (formData : SettleForm) : SettleData :=
  { group_id := groupId, to_user_id := parseInt formData.to_user_id,
    amount := parseFloat formData.amount }

/-- The handler `handleSubmit` (lines 820-832). -/
def handleSubmit (env : Browser) (groupId : Nat) (formData : SettleForm) : List UIEvent :=
  if formData.to_user_id = "" ∨ formData.amount = "" then []
  else
    let data := requestData groupId formData
    let sent := UIEvent.fetch (api.fetchCall env.token "/settle"
      { method := some "POST", body := some (.settleUp data) })
    match api.settleUp env data with
    | .ok _ => [sent, .onSuccess]
    | .error err => [sent, .alert err.message]

end SettleModal

/-- The data objects of the record-expense requests among the events of a handler. -/
def sentExpenses (events : List UIEvent) : List ExpenseData :=
  events.filterMap (fun ev =>
    match ev with
    | .fetch call =>
      match call.body with
      | some (.addExpense data) => some data
      | _ => none
    | _ => none)

/-- The data objects of the record-settlement requests among the events of a handler. -/
def sentSettlements (events : List UIEvent) : List SettleData :=
  events.filterMap (fun ev =>
    match ev with
    | .fetch call =>
      match call.body with
      | some (.settleUp data) => some data
      | _ => none
    | _ => none)

/-- What the user can do to the form of `AddExpenseModal`: type an amount, type a description,
click the checkbox of a member. -/
inductive FormAction where
  | amount (value : String)
  | description (value : String)
  | toggle (member : Member)
  deriving DecidableEq, Repr

/-- The form after one action (the `onChange` handlers of lines 688, 695 and 706-712). -/
def AddExpenseModal.act (formData : AddExpenseForm) : FormAction → AddExpenseForm
  | .amount value => { formData with amount := value }
  | .description value => { formData with description := value }
  | .toggle member => AddExpenseModal.toggle formData member

/-- A browser whose server answers every request with `200 OK` and the body `null`, with no
token stored; used to run the handlers on concrete forms. -/
def quietBrowser : Browser :=
  { numberToString := fun _ => "", fetch := fun _ => .ok { ok := true, json := .ok .null },
    token := none }

/-- The body FastAPI sends with status 422 when a request fails validation: `detail` is an
array of objects, here one object saying that `amount` is not a valid number. -/
def validationErrorBody : Json :=
  .obj [("detail", .arr [.obj [("loc", .arr [.str "body", .str "amount"]),
    ("msg", .str "value is not a valid float"), ("type", .str "type_error.float")]])]

/-- A browser whose server rejects every request with the body `validationErrorBody`. -/
def rejectingBrowser : Browser :=
  { numberToString := fun _ => "",
    fetch := fun _ => .ok { ok := false, json := .ok validationErrorBody },
    token := none }

/-! ## The settle form: the select of the payee -/

/-- The `value` attribute of the option of a member (line 846): React writes the number
`member.id` as the string `'' + member.id`, which for a non-negative integer below `10^21`
is its decimal representation. -/
def optionValue (member : Member) : String := Nat.repr member.id

/-- The values of the options of the select (lines 844-847): the empty value of the
placeholder "Select member to pay", then one option per member. -/
def SettleModal.optionValues (members : List Member) : List String :=
  "" :: members.map optionValue

/-- The initial `formData` of `SettleModal` (lines 815-818). -/
def SettleModal.initialFormData : SettleForm := { to_user_id := "", amount := "" }

/-- What the user can do to the form of `SettleModal`: choose an option of the select, whose
value `e.target.value` is then stored, or type an amount. -/
inductive SettleAction where
  | select (value : String)
  | amount (value : String)
  deriving DecidableEq, Repr

/-- The form after one action (the `onChange` handlers of lines 841 and 854). -/
def SettleModal.act (formData : SettleForm) : SettleAction → SettleForm
  | .select value => { formData with to_user_id := value }
  | .amount value => { formData with amount := value }

/-! ## The properties of the request bodies -/

/-- The value of a property of a request body. -/
inductive FieldValue where
  | id (n : Nat)
  | number (x : JSNumber)
  | text (s : String)
  | ids (l : List Nat)
  deriving DecidableEq, Repr

/-- The properties of the object literal of lines 666-671, in order. -/
def ExpenseData.properties (data : ExpenseData) : List (String × FieldValue) :=
  [("group_id", .id data.group_id), ("amount", .number data.amount),
    ("description", .text data.description), ("split_between", .ids data.split_between)]

/-- The properties of the object literal of lines 823-827, in order. -/
def SettleData.properties (data : SettleData) : List (String × FieldValue) :=
  [("group_id", .id data.group_id), ("to_user_id", .number data.to_user_id),
    ("amount", .number data.amount)]

/-- The `fetch` calls among the events of a handler. -/
def fetchCalls (events : List UIEvent) : List FetchCall :=
  events.filterMap (fun ev =>
    match ev with
    | .fetch call => some call
    | _ => none)

/-- A browser in which Alice is logged in (her token is stored); the server answers every
request with `200 OK` and the body `null`. -/
def aliceBrowser : Browser := { quietBrowser with token := some "alice-token" }

/-- A browser in which Bob is logged in. -/
def bobBrowser : Browser := { quietBrowser with token := some "bob-token" }

/-! ## The api methods -/

/-- A call of one of the methods of the object `api` (lines 41-60), with its arguments.  Ids
are non-negative integers; a template literal writes them in decimal. -/
inductive ApiCall where
  | login (data : LoginData)
  | register (data : RegisterData)
  | getDashboard
  | getGroups
  | createGroup (data : GroupData)
  | getGroupDetails (id : Nat)
  | getGroupExpenses (id : Nat)
  | getGroupBalances (id : Nat)
  | getGroupNetOwe (id : Nat)
  | getSettleSuggestions (id : Nat)
  | addExpense (data : ExpenseData)
  | settleUp (data : SettleData)
  | searchUsers (q : String)
  | addMember (groupId : Nat) (data : AddMemberData)
  | leaveGroup (groupId : Nat)
  | getActivity
  | getNotifications
  | markNotificationRead (id : Nat)
  | getMonthlyAnalytics
  | simplifyDebts
  deriving DecidableEq, Repr

namespace ApiCall

/-- The first argument a method passes to `api.request`. -/
def endpoint : ApiCall → String
  | login _ => "/login"
  | register _ => "/register"
  | getDashboard => "/me/dashboard"
  | getGroups => "/me/groups"
  | createGroup _ => "/groups"
  | getGroupDetails id => "/groups/" ++ Nat.repr id
  | getGroupExpenses id => "/groups/" ++ Nat.repr id ++ "/expenses"
  | getGroupBalances id => "/groups/" ++ Nat.repr id ++ "/balances"
  | getGroupNetOwe id => "/groups/" ++ Nat.repr id ++ "/net-owe"
  | getSettleSuggestions id => "/groups/" ++ Nat.repr id ++ "/settle-suggestions"
  | addExpense _ => "/expenses"
  | settleUp _ => "/settle"
  | searchUsers q => "/users/search?q=" ++ q
  | addMember groupId _ => "/groups/" ++ Nat.repr groupId ++ "/add-member"
  | leaveGroup groupId => "/groups/" ++ Nat.repr groupId ++ "/leave"
  | getActivity => "/me/activity"
  | getNotifications => "/me/notifications"
  | markNotificationRead id => "/me/notifications/" ++ Nat.repr id ++ "/read"
  | getMonthlyAnalytics => "/me/analytics/monthly"
  | simplifyDebts => "/me/simplify-debts"

/-- The second argument a method passes to `api.request` (none for the plain GET methods). -/
def options : ApiCall → RequestInit
  | login data => { method := some "POST", body := some (.login data) }
  | register data => { method := some "POST", body := some (.register data) }
  | createGroup data => { method := some "POST", body := some (.createGroup data) }
  | addExpense data => { method := some "POST", body := some (.addExpense data) }
  | settleUp data => { method := some "POST", body := some (.settleUp data) }
  | addMember _ data => { method := some "POST", body := some (.addMember data) }
  | leaveGroup _ => { method := some "DELETE" }
  | markNotificationRead _ => { method := some "POST" }
  | _ => {}

end ApiCall

/-- The outcome of calling a method of `api`. -/
def api.call (env : Browser) (c : ApiCall) : Except JSError Json :=
  api.request env c.endpoint c.options

/-! ## AuthProvider and AuthScreen -/

/-- The expression `v.key` on a parsed value, for a key that is not an array index, not
`length` and not inherited from a prototype: `none` is `undefined`.  Reading a property of
`null` throws. -/
def Json.get (v : Json) (key : String) : Except JSError (Option Json) :=
  match v with
  | .null => .error ⟨"TypeError", "Cannot read properties of null (reading '" ++ key ++ "')"⟩
  | .obj fields => .ok (fields.lookup key)
  | _ => .ok none

/-- The string `localStorage.setItem` stores for a value: `ToString` of it (`undefined` gives
the text `undefined`). -/
def storageString (numberToString : JSNumber → String) : Option Json → Except JSError String
  | none => .ok "undefined"
  | some v => v.toJSString numberToString

/-- The React state of `AuthProvider` (lines 65-66): `token` and `user`; `none` stands for
`null` or `undefined`. -/
structure AuthState where
  token : Option Json
  user : Option Json

/-- What a function of `AuthProvider` does that can be seen from outside, in order. -/
inductive AuthEffect where
  | fetch (call : FetchCall)
  | setItem (key value : String)
  | removeItem (key : String)
  | setToken (value : Option Json)
  | setUser (value : Option Json)
  | setTimeout (ms : Nat)

/-- A finished call of a function of `AuthProvider`: what it resolved or rejected with, the
browser afterwards (its `token` is the entry of `localStorage`), the React state afterwards,
and the effects in order. -/
structure AuthRun (α : Type) where
  result : Except JSError α
  env : Browser
  state : AuthState
  effects : List AuthEffect

namespace AuthProvider

/-- The initial React state (lines 65-66). -/
def initialState (env : Browser) : AuthState :=
  { token := env.token.map Json.str, user := none }

/-- The function `login` (lines 77-86). -/
def login (env : Browser) (st : AuthState) (email password : String) :
    AuthRun (Option Json) :=
  let call := api.fetchCall env.token (ApiCall.login ⟨email, password⟩).endpoint
    (ApiCall.login ⟨email, password⟩).options
  match api.call env (.login ⟨email, password⟩) with
  | .error e => ⟨.error e, env, st, [.fetch call]⟩
  | .ok data =>
    match data.get "access_token" with
    | .error e => ⟨.error e, env, st, [.fetch call]⟩
    | .ok accessToken =>
      match storageString env.numberToString accessToken with
      | .error e => ⟨.error e, env, st, [.fetch call]⟩
      | .ok stored =>
        ⟨.ok accessToken, { env with token := some stored }, { st with token := accessToken },
          [.fetch call, .setItem "token" stored, .setToken accessToken, .setTimeout 100]⟩

/-- The function `register` (lines 88-90). -/
def register (env : Browser) (st : AuthState) (name email password : String) : AuthRun Unit :=
  let call := api.fetchCall env.token (ApiCall.register ⟨name, email, password⟩).endpoint
    (ApiCall.register ⟨name, email, password⟩).options
  match api.call env (.register ⟨name, email, password⟩) with
  | .error e => ⟨.error e, env, st, [.fetch call]⟩
  | .ok _ => ⟨.ok (), env, st, [.fetch call]⟩

/-- The function `logout` (lines 92-96). -/
def logout (env : Browser) (_st : AuthState) : AuthRun Unit :=
  ⟨.ok (), { env with token := none }, { token := none, user := none },
    [.removeItem "token", .setToken none, .setUser none]⟩

end AuthProvider

/-- The state `formData` of `AuthScreen` (line 114). -/
structure AuthForm where
  name : String
  email : String
  password : String
  deriving DecidableEq, Repr

/-- The React state of `AuthScreen` (lines 113-116). -/
structure AuthScreenState where
  isLogin : Bool
  formData : AuthForm
  error : String
  loading : Bool
  deriving DecidableEq, Repr

/-- A call that `AuthScreen.handleSubmit` makes to a function of the auth context. -/
inductive AuthCall where
  | register (name email password : String)
  | login (email password : String)
  deriving DecidableEq, Repr

/-- The handler `handleSubmit` of `AuthScreen` (lines 119-134).  `login` and `register` are the
functions taken from the auth context; they act on a world `σ` (the browser and the state of
the provider) and resolve or reject.  The result is the calls made, in order, the React state
of the screen afterwards, and the world afterwards. -/
def AuthScreen.handleSubmit {σ α β : Type}
    (login : σ → String → String → Except JSError α × σ)
    (register : σ → String → String → String → Except JSError β × σ)
    (world : σ) (st : AuthScreenState) : List AuthCall × AuthScreenState × σ :=
  let started : AuthScreenState := { st with error := "", loading := true }
  let loginCall := AuthCall.login st.formData.email st.formData.password
  let registerCall := AuthCall.register st.formData.name st.formData.email st.formData.password
  if st.isLogin then
    match login world st.formData.email st.formData.password with
    | (.ok _, w) => ([loginCall], started, w)
    | (.error err, w) => ([loginCall], { started with error := err.message, loading := false }, w)
  else
    match register world st.formData.name st.formData.email st.formData.password with
    | (.error err, w) =>
      ([registerCall], { started with error := err.message, loading := false }, w)
    | (.ok _, w) =>
      match login w st.formData.email st.formData.password with
      | (.ok _, w2) => ([registerCall, loginCall], started, w2)
      | (.error err, w2) =>
        ([registerCall, loginCall], { started with error := err.message, loading := false }, w2)

/-- The function `login` of the auth context, acting on the browser and the provider state. -/
def contextLogin (w : Browser × AuthState) (email password : String) :
    Except JSError (Option Json) × (Browser × AuthState) :=
  ((AuthProvider.login w.1 w.2 email password).result,
    ((AuthProvider.login w.1 w.2 email password).env,
      (AuthProvider.login w.1 w.2 email password).state))

/-- The function `register` of the auth context, acting on the browser and the provider
state. -/
def contextRegister (w : Browser × AuthState) (name email password : String) :
    Except JSError Unit × (Browser × AuthState) :=
  ((AuthProvider.register w.1 w.2 name email password).result,
    ((AuthProvider.register w.1 w.2 name email password).env,
      (AuthProvider.register w.1 w.2 name email password).state))

/-- A browser whose server answers every request with `200 OK` and a token object. -/
def loginBrowser : Browser :=
  { numberToString := fun _ => "",
    fetch := fun _ => .ok (Response.mk true
      (.ok (.obj [("access_token", .str "abc123"), ("token_type", .str "bearer")]))),
    token := none }

/-- A browser whose server rejects every request with `{"detail": "Email already registered"}`. -/
def refusingBrowser : Browser :=
  { numberToString := fun _ => "",
    fetch := fun _ => .ok (Response.mk false
      (.ok (.obj [("detail", .str "Email already registered")]))),
    token := none }

/-! ## App, GroupDetail and Dashboard -/

/-- The React state of `App` (lines 948-950); `none` is `null`. -/
structure AppState where
  currentView : String
  selectedGroupId : Option Nat
  sidebarOpen : Bool
  deriving DecidableEq, Repr

/-- The initial state of `App`. -/
def App.initialState : AppState :=
  { currentView := "dashboard", selectedGroupId := none, sidebarOpen := false }

/-- The function `navigate(view, data = null)` (lines 956-960). -/
def App.navigate (st : AppState) (view : String) (data : Option Nat := none) : AppState :=
  { currentView := view,
    selectedGroupId := if view = "group" then data else st.selectedGroupId,
    sidebarOpen := false }

/-- The expression `x || []`: `x` when it is truthy, the empty array otherwise (`undefined`
is falsy). -/
def orEmptyArray : Option Json → Json
  | some v => if v.truthy then v else .arr []
  | none => .arr []

/-- The React state of `GroupDetail` that `loadData` writes (lines 456-459, 463). -/
structure GroupDetailState where
  group : Json
  expenses : Json
  netOwe : Json
  suggestions : Json
  loading : Bool

/-- The initial state of `GroupDetail`. -/
def GroupDetail.initialState : GroupDetailState :=
  { group := .null, expenses := .arr [], netOwe := .arr [], suggestions := .arr [],
    loading := true }

/-- The function `loadData` of `GroupDetail` (lines 473-492): the four requests of
`Promise.all`, then the four setters in order; an error on the way is caught and logged, and
`finally` resets `loading`. -/
def GroupDetail.loadData (env : Browser) (groupId : Nat) (st : GroupDetailState) :
    GroupDetailState :=
  match api.call env (.getGroupDetails groupId), api.call env (.getGroupExpenses groupId),
    api.call env (.getGroupNetOwe groupId), api.call env (.getSettleSuggestions groupId) with
  | .ok groupData, .ok expensesData, .ok netOweData, .ok suggestionsData =>
    match netOweData.get "net_owe" with
    | .error _ => { st with group := groupData, expenses := expensesData, loading := false }
    | .ok netOwe =>
      match suggestionsData.get "transactions" with
      | .error _ =>
        { st with group := groupData, expenses := expensesData,
                  netOwe := orEmptyArray netOwe, loading := false }
      | .ok transactions =>
        { group := groupData, expenses := expensesData, netOwe := orEmptyArray netOwe,
          suggestions := orEmptyArray transactions, loading := false }
  | _, _, _, _ => { st with loading := false }

/-- The UTF-16 code units of a string. -/
def utf16 (s : String) : List Nat :=
  s.toList.flatMap (fun c =>
    if c.toNat < 0x10000 then [c.toNat]
    else [0xD800 + (c.toNat - 0x10000) / 0x400, 0xDC00 + (c.toNat - 0x10000) % 0x400])

/-- What `x.slice(0, 5)` can return: an array, or a string given by its code units. -/
inductive Sliced where
  | array (items : List Json)
  | string (codeUnits : List Nat)

/-- The expression `v.slice(0, 5)` on a parsed value: the first five elements of an array,
the first five code units of a string; any other value has no callable `slice`. -/
def slice05 : Json → Except JSError Sliced
  | .arr items => .ok (.array (items.take 5))
  | .str s => .ok (.string ((utf16 s).take 5))
  | .null => .error ⟨"TypeError", "Cannot read properties of null (reading 'slice')"⟩
  | _ => .error ⟨"TypeError", "activityData.slice is not a function"⟩

/-- The React state of `Dashboard` (lines 216-218). -/
structure DashboardState where
  stats : Json
  activity : Sliced
  loading : Bool

/-- The initial state of `Dashboard`. -/
def Dashboard.initialState : DashboardState :=
  { stats := .null, activity := .array [], loading := true }

/-- The function `loadData` of `Dashboard` (lines 228-243). -/
def Dashboard.loadData (env : Browser) (st : DashboardState) : DashboardState :=
  match api.call env .getDashboard, api.call env .getActivity with
  | .ok dashboardData, .ok activityData =>
    match slice05 activityData with
    | .error _ => { st with stats := dashboardData, loading := false }
    | .ok activity => { stats := dashboardData, activity := activity, loading := false }
  | _, _ => { st with loading := false }

/-- A browser whose server answers the net-owe request of group 7 with the body `null` and
every other request with the object `{"net_owe": 0, "transactions": [1]}`. -/
def nullNetOweBrowser : Browser :=
  { numberToString := fun _ => "",
    fetch := fun call =>
      if call.url = API_BASE ++ "/groups/7/net-owe" then .ok (Response.mk true (.ok .null))
      else .ok (Response.mk true (.ok (.obj [("net_owe", .num (.finite false 0 (-1074))),
        ("transactions", .arr [.num (.finite false 4503599627370496 (-52))])]))),
    token := some "alice-token" }

/-- A state of `GroupDetail` after an earlier load: a group, one expense, one net-owe row and
one suggestion are on display. -/
def loadedGroupDetail : GroupDetailState :=
  { group := .obj [("name", .str "Trip")], expenses := .arr [.str "old expense"],
    netOwe := .arr [.str "old row"], suggestions := .arr [.str "old suggestion"],
    loading := true }

/-- A browser whose server answers every request with an array of seven strings. -/
def activityBrowser : Browser :=
  { numberToString := fun _ => "",
    fetch := fun _ => .ok (Response.mk true (.ok (.arr [.str "a", .str "b", .str "c",
      .str "d", .str "e", .str "f", .str "g"]))),
    token := some "alice-token" }

/-- A browser whose server answers every request with `200 OK` and, as body, the array of
the header lines that `fetch` was given; used to observe what `api.request` sends. -/
def echoBrowser (token : Option String) : Browser :=
  { numberToString := fun _ => "",
    fetch := fun call =>
      .ok (Response.mk true (.ok (.arr (call.headers.map (fun h => .str (h.1 ++ ": " ++ h.2)))))),
    token := token }

/-! ## Part II. The core behind the API

The ledger, the balance calculator and the debt simplifier run on the server; `src/App.js`
only calls them (`api.addExpense`, `api.settleUp`, `api.getGroupBalances`,
`api.getSettleSuggestions`).  The definitions of this part are written from the specification.
-/

namespace Core

/-- Modelled from the spec: the id of a User (section 3); the server code is not in `src/`. -/
abbrev UserId := Nat

/-- Modelled from the spec: the id of a Group (section 3); the server code is not in `src/`. -/
abbrev GroupId := Nat

/-- Modelled from the spec: the error taxonomy of section 7; the server code is not in `src/`. -/
inductive CoreError where
  | ValidationError
  | NotFoundError
  | ConcurrencyError
  | InvariantViolation
  deriving DecidableEq, Repr

/-- Modelled from the spec: the Expense record of section 3 (amounts are integers in minor
currency units); the server code is not in `src/`. -/
structure Expense where
  id : Nat
  groupId : GroupId
  payer : UserId
  amount : Int
  description : String
  participants : List UserId
  created : Nat
  deriving DecidableEq, Repr

/-- Modelled from the spec: the Settlement record of section 3; the server code is not in
`src/`. -/
structure Settlement where
  id : Nat
  groupId : GroupId
  payer : UserId
  payee : UserId
  amount : Int
  created : Nat
  deriving DecidableEq, Repr

/-- Modelled from the spec: LedgerEntry, the tagged union of Expense and Settlement
(section 3); the server code is not in `src/`. -/
inductive LedgerEntry where
  | expense (e : Expense)
  | settlement (s : Settlement)
  deriving DecidableEq, Repr

/-- Modelled from the spec: the Ledger (server code, not in `src/`), the group an entry belongs
to. -/
def LedgerEntry.groupId : LedgerEntry → GroupId
  | .expense e => e.groupId
  | .settlement s => s.groupId

/-- Modelled from the spec: the Group record of section 3; `members` lists the member set,
each id once; the server code is not in `src/`. -/
structure Group where
  id : GroupId
  name : String
  members : List UserId
  deriving DecidableEq, Repr

/-- Modelled from the spec: the Ledger component of section 4.1, the store behind the API:
the groups, all entries in insertion order (the sequence of one group is the entries carrying
its id), and the next fresh id; the server code is not in `src/`. -/
structure Ledger where
  groups : List Group
  entries : List LedgerEntry
  nextId : Nat
  deriving DecidableEq, Repr

/-- Modelled from the spec: the Ledger (server code, not in `src/`), a NetBalance map (section 3),
one entry per member. -/
abbrev Balances := List (UserId × Int)

/-- Modelled from the spec: the Ledger (server code, not in `src/`), a SettlementSuggestion
(section 3), the triple (from, to, amount). -/
structure Suggestion where
  fromUser : UserId
  toUser : UserId
  amount : Int
  deriving DecidableEq, Repr

namespace Ledger

/-- Modelled from the spec: the Ledger (server code, not in `src/`), the store before any request.
-/
def empty : Ledger := { groups := [], entries := [], nextId := 0 }

/-- Modelled from the spec: the Ledger (server code, not in `src/`), the group with a given id, if
there is one. -/
def findGroup (L : Ledger) (groupId : GroupId) : Option Group :=
  L.groups.find? (fun g => g.id = groupId)

/-- Modelled from the spec: the Ledger (server code, not in `src/`), section 3, "a group is
created empty except for its creator". -/
def createGroup (L : Ledger) (name : String) (creator : UserId) : Group × Ledger :=
  let g : Group := { id := L.nextId, name := name, members := [creator] }
  (g, { L with groups := L.groups ++ [g], nextId := L.nextId + 1 })

/-- Modelled from the spec: the Ledger (server code, not in `src/`), section 3, "membership only
grows": a user joins the member set of a group. -/
def addMember (L : Ledger) (groupId : GroupId) (user : UserId) : Except CoreError Unit × Ledger :=
  match L.findGroup groupId with
  | none => (.error .NotFoundError, L)
  | some _ =>
    (.ok (), { L with groups := L.groups.map (fun g =>
      if g.id = groupId ∧ user ∉ g.members then { g with members := g.members ++ [user] }
      else g) })

/-- Modelled from the spec: the Ledger (server code, not in `src/`), `appendExpense` of section
4.1: "fails with ValidationError if amount ≤ 0, participants is empty, payer not a member, or any
participant not a member"; on success one entry is appended. A failure returns the store it was
given. -/
def appendExpense (L : Ledger) (groupId : GroupId) (payer : UserId) (amount : Int)
    (description : String) (participants : List UserId) (now : Nat) :
    Except CoreError Expense × Ledger :=
  match L.findGroup groupId with
  | none => (.error .NotFoundError, L)
  | some g =>
    if amount ≤ 0 ∨ participants = [] ∨ payer ∉ g.members ∨
        ∃ p ∈ participants, p ∉ g.members then
      (.error .ValidationError, L)
    else
      let e : Expense :=
        { id := L.nextId, groupId := groupId, payer := payer, amount := amount,
          description := description, participants := participants, created := now }
      (.ok e, { L with entries := L.entries ++ [.expense e], nextId := L.nextId + 1 })

/-- Modelled from the spec: the Ledger (server code, not in `src/`), `appendSettlement` of section
4.1: "fails with ValidationError if amount ≤ 0, payer == payee, or either party not a member". -/
def appendSettlement (L : Ledger) (groupId : GroupId) (payer payee : UserId) (amount : Int)
    (now : Nat) : Except CoreError Settlement × Ledger :=
  match L.findGroup groupId with
  | none => (.error .NotFoundError, L)
  | some g =>
    if amount ≤ 0 ∨ payer = payee ∨ payer ∉ g.members ∨ payee ∉ g.members then
      (.error .ValidationError, L)
    else
      let s : Settlement :=
        { id := L.nextId, groupId := groupId, payer := payer, payee := payee,
          amount := amount, created := now }
      (.ok s, { L with entries := L.entries ++ [.settlement s], nextId := L.nextId + 1 })

/-- Modelled from the spec: the Ledger (server code, not in `src/`), `readAll` of section 4.1: the
entries of the group in insertion order, `NotFoundError` when the group does not exist. -/
def readAll (L : Ledger) (groupId : GroupId) : Except CoreError (List LedgerEntry) :=
  match L.findGroup groupId with
  | none => .error .NotFoundError
  | some _ => .ok (L.entries.filter (fun e => e.groupId = groupId))

end Ledger

/-- Modelled from the spec: the Ledger (server code, not in `src/`), a request that changes the
store (section 6 and the group membership of section 3). -/
inductive Command where
  | createGroup (name : String) (creator : UserId)
  | addMember (groupId : GroupId) (user : UserId)
  | recordExpense (groupId : GroupId) (payer : UserId) (amount : Int) (description : String)
      (participants : List UserId) (now : Nat)
  | recordSettlement (groupId : GroupId) (payer payee : UserId) (amount : Int) (now : Nat)
  deriving DecidableEq, Repr

/-- Modelled from the spec: the Ledger (server code, not in `src/`), the store after one request,
whether it succeeded or failed. -/
def Ledger.step (L : Ledger) : Command → Ledger
  | .createGroup name creator => (L.createGroup name creator).2
  | .addMember groupId user => (L.addMember groupId user).2
  | .recordExpense groupId payer amount description participants now =>
    (L.appendExpense groupId payer amount description participants now).2
  | .recordSettlement groupId payer payee amount now =>
    (L.appendSettlement groupId payer payee amount now).2

/-- Modelled from the spec: the Ledger (server code, not in `src/`), the store after a sequence of
requests, from the empty store. -/
def Ledger.run (commands : List Command) : Ledger :=
  commands.foldl Ledger.step Ledger.empty

/-! ### BalanceCalculator -/

/-- Modelled from the spec: BalanceCalculator (server code, not in `src/`), section 4.2, the
remainder handed out "one minor unit at a time": the next participant gets `base`, and one unit
more while `extra` units are left. -/
def distribute (base : Int) : Nat → List UserId → List (UserId × Int)
  | _, [] => []
  | extra, u :: us => (u, if 0 < extra then base + 1 else base) :: distribute base (extra - 1) us

/-- Modelled from the spec: BalanceCalculator (server code, not in `src/`), section 4.2, the
per-participant shares of an expense: the amount divided by the participant count in integer
arithmetic, the remainder (amount mod count) distributed to the participants in ascending user id.
-/
def shares (amount : Int) (participants : List UserId) : List (UserId × Int) :=
  let ordered := participants.insertionSort (fun a b => a ≤ b)
  let count : Int := (ordered.length : Int)
  distribute (amount / count) (amount % count).toNat ordered

/-- Modelled from the spec: BalanceCalculator (server code, not in `src/`), add `x` to the balance
of `user`. -/
def credit (balances : Balances) (user : UserId) (x : Int) : Balances :=
  balances.map (fun p => if p.1 = user then (p.1, p.2 + x) else p)

/-- Modelled from the spec: BalanceCalculator (server code, not in `src/`), subtract `x` from the
balance of `user`. -/
def debit (balances : Balances) (user : UserId) (x : Int) : Balances :=
  credit balances user (-x)

/-- Modelled from the spec: BalanceCalculator (server code, not in `src/`), section 4.2, the
effect of a settlement on the balances: "credit the payer's balance by the amount and debit the
payee's balance by the amount". -/
def applySettlement (balances : Balances) (payer payee : UserId) (amount : Int) : Balances :=
  debit (credit balances payer amount) payee amount

/-- Modelled from the spec: BalanceCalculator (server code, not in `src/`), section 4.2, the
effect of one ledger entry: an expense credits the payer by the full amount and debits each
participant by their share. -/
def applyEntry (balances : Balances) : LedgerEntry → Balances
  | .expense e =>
    (shares e.amount e.participants).foldl (fun acc p => debit acc p.1 p.2)
      (credit balances e.payer e.amount)
  | .settlement s => applySettlement balances s.payer s.payee s.amount

/-- Modelled from the spec: BalanceCalculator (server code, not in `src/`), `computeBalances` of
section 4.2: every member starts at 0 and the entries of the group are replayed in ledger order;
`NotFoundError` for an unknown group. -/
def computeBalances (L : Ledger) (groupId : GroupId) : Except CoreError Balances :=
  match L.findGroup groupId with
  | none => .error .NotFoundError
  | some g =>
    .ok ((L.entries.filter (fun e => e.groupId = groupId)).foldl applyEntry
      (g.members.map (fun u => (u, 0))))

/-! ### DebtSimplifier -/

/-- Modelled from the spec: DebtSimplifier (server code, not in `src/`), section 4.3 step 2, the
order of creditors: descending balance, ties by ascending user id. -/
def creditorOrder (a b : UserId × Int) : Prop := b.2 < a.2 ∨ (a.2 = b.2 ∧ a.1 ≤ b.1)

/-- Modelled from the spec: DebtSimplifier (server code, not in `src/`), section 4.3 step 2, the
order of debtors: descending absolute balance, ties by ascending user id. -/
def debtorOrder (a b : UserId × Int) : Prop := |b.2| < |a.2| ∨ (|a.2| = |b.2| ∧ a.1 ≤ b.1)

instance : DecidableRel creditorOrder := fun a b => by unfold creditorOrder; infer_instance

instance : DecidableRel debtorOrder := fun a b => by unfold debtorOrder; infer_instance

/-- Modelled from the spec: DebtSimplifier (server code, not in `src/`), section 4.3 steps 3 and
4: take the largest creditor and the largest debtor, transfer `t = min(creditor.balance,
|debtor.balance|)`, emit (debtor, creditor, `t`), reduce both by `t`, drop a party that reaches
zero, sort again; stop when no creditor or no debtor is left. `fuel` bounds the number of rounds.
-/
def settleLoop : Nat → List (UserId × Int) → List (UserId × Int) → List Suggestion
  | 0, _, _ => []
  | _ + 1, [], _ => []
  | _ + 1, _ :: _, [] => []
  | fuel + 1, c :: cs, d :: ds =>
    let t := min c.2 |d.2|
    let cs1 := if c.2 - t = 0 then cs else (c.1, c.2 - t) :: cs
    let ds1 := if d.2 + t = 0 then ds else (d.1, d.2 + t) :: ds
    { fromUser := d.1, toUser := c.1, amount := t } ::
      settleLoop fuel (cs1.insertionSort creditorOrder) (ds1.insertionSort debtorOrder)

/-- Modelled from the spec: DebtSimplifier (server code, not in `src/`), `simplify` of section
4.3: `ValidationError` if the values do not sum to zero; otherwise the creditors and the debtors
are separated (zero balances ignored), sorted, and matched greedily. Every round drops a party, so
one round per entry is enough. -/
def simplify (balances : Balances) : Except CoreError (List Suggestion) :=
  if (balances.map Prod.snd).sum ≠ 0 then .error .ValidationError
  else
    .ok (settleLoop balances.length
      ((balances.filter (fun p => 0 < p.2)).insertionSort creditorOrder)
      ((balances.filter (fun p => p.2 < 0)).insertionSort debtorOrder))

/-- Modelled from the spec: DebtSimplifier (server code, not in `src/`), section 8, the
suggestions "applied as settlements": each triple takes effect on the balances as the settlement
(payer `from`, payee `to`, amount). -/
def applySuggestions (balances : Balances) (suggestions : List Suggestion) : Balances :=
  suggestions.foldl (fun acc t => applySettlement acc t.fromUser t.toUser t.amount) balances

/-- Modelled from the spec: DebtSimplifier (server code, not in `src/`), section 8, "replaying its
output through `appendSettlement` for each triple": every suggestion is recorded in the ledger of
the group as a settlement. -/
def recordSuggestions (L : Ledger) (groupId : GroupId) (suggestions : List Suggestion)
    (now : Nat) : Ledger :=
  suggestions.foldl (fun acc t =>
    (acc.appendSettlement groupId t.fromUser t.toUser t.amount now).2) L

/-- Modelled from the spec: DebtSimplifier (server code, not in `src/`), the number of members
with a nonzero balance (`members_with_nonzero_balance` of section 4.3). -/
def nonzeroCount (balances : Balances) : Nat :=
  (balances.filter (fun p => p.2 ≠ 0)).length

/-- Modelled from the spec: DebtSimplifier (server code, not in `src/`), what `appendExpense` and
`appendSettlement` have checked of an entry against the member set (sections 3 and 4.1). -/
def EntryOK (members : List UserId) : LedgerEntry → Prop
  | .expense e => e.payer ∈ members ∧ e.participants ≠ [] ∧ ∀ p ∈ e.participants, p ∈ members
  | .settlement s => s.payer ∈ members ∧ s.payee ∈ members

/-- Modelled from the spec: DebtSimplifier (server code, not in `src/`), the well-formedness of a
store: member sets list each id once, and every entry belongs to a group against whose members it
has been validated. -/
def Ledger.WellFormed (L : Ledger) : Prop :=
  (∀ g ∈ L.groups, g.members.Nodup) ∧
  ∀ e ∈ L.entries, ∃ g, L.findGroup e.groupId = some g ∧ EntryOK g.members e

/-- The loop invariant of `settleLoop`, relating the two work lists to a balance map `M`:
`M` is a map (each user once) whose values sum to zero, the creditor list holds exactly the
entries of `M` with a positive balance and the debtor list exactly those with a negative
balance, each once. -/
structure SettleInv (M : Balances) (cs ds : List (UserId × Int)) : Prop where
  keys : (M.map Prod.fst).Nodup
  total : (M.map Prod.snd).sum = 0
  cred : ∀ p ∈ cs, 0 < p.2 ∧ p ∈ M
  debt : ∀ p ∈ ds, p.2 < 0 ∧ p ∈ M
  pos : ∀ p ∈ M, 0 < p.2 → p ∈ cs
  neg : ∀ p ∈ M, p.2 < 0 → p ∈ ds
  credNodup : cs.Nodup
  debtNodup : ds.Nodup

end Core

end SplitSmart




/-! # Theorems -/

namespace SplitSmart

/-! ## The expense form: guard and participant list -/

theorem sentExpenses_handleSubmit (env : Browser) (groupId : Nat) (formData : AddExpenseForm) :
    sentExpenses (AddExpenseModal.handleSubmit env groupId formData) =
      if formData.amount = "" ∨ formData.description = "" ∨ formData.split_between.length = 0
      then [] else [AddExpenseModal.requestData groupId formData] := by
  unfold AddExpenseModal.handleSubmit
  split
  · rfl
  · simp only []
    cases api.addExpense env (AddExpenseModal.requestData groupId formData) <;>
      simp [sentExpenses, api.fetchCall]

theorem sentSettlements_handleSubmit (env : Browser) (groupId : Nat) (formData : SettleForm) :
    sentSettlements (SettleModal.handleSubmit env groupId formData) =
      if formData.to_user_id = "" ∨ formData.amount = "" then []
      else [SettleModal.requestData groupId formData] := by
  unfold SettleModal.handleSubmit
  split
  · rfl
  · simp only []
    cases api.settleUp env (SettleModal.requestData groupId formData) <;>
      simp [sentSettlements, api.fetchCall]

/-- C4: `AddExpenseModal.handleSubmit` does nothing at all (no request, no callback, no alert)
when the amount, the description or `split_between` is empty; in every other form state it
sends exactly one record-expense request; and every request it sends carries the form's
`split_between`, which is then non-empty. -/
theorem C4_addExpense_only_with_participants (env : Browser) (groupId : Nat)
    (formData : AddExpenseForm) :
    ((formData.split_between = [] ∨ formData.amount = "" ∨ formData.description = "") →
      AddExpenseModal.handleSubmit env groupId formData = []) ∧
    (¬ (formData.split_between = [] ∨ formData.amount = "" ∨ formData.description = "") →
      sentExpenses (AddExpenseModal.handleSubmit env groupId formData) =
        [AddExpenseModal.requestData groupId formData]) ∧
    (∀ data ∈ sentExpenses (AddExpenseModal.handleSubmit env groupId formData),
      data.split_between = formData.split_between ∧ data.split_between ≠ []) := by
  refine ⟨?_, ?_, ?_⟩
  · intro h
    unfold AddExpenseModal.handleSubmit
    rw [if_pos]
    rcases h with h | h | h
    · right; right; simp [h]
    · left; exact h
    · right; left; exact h
  · intro h
    rw [sentExpenses_handleSubmit, if_neg]
    intro h2
    apply h
    rcases h2 with h2 | h2 | h2
    · right; left; exact h2
    · right; right; exact h2
    · left; exact List.length_eq_zero.mp h2
  · intro data hd
    rw [sentExpenses_handleSubmit] at hd
    split at hd
    · simp at hd
    · rename_i hg
      simp only [List.mem_singleton] at hd
      subst hd
      refine ⟨rfl, ?_⟩
      intro h0
      apply hg
      right; right
      simp [AddExpenseModal.requestData] at h0
      simp [h0]

/-- Witness of C4: an empty participant list sends nothing, a filled form sends one request. -/
theorem C4_addExpense_only_with_participants_witness :
    AddExpenseModal.handleSubmit quietBrowser 7 ⟨"12", "lunch", []⟩ = [] ∧
    sentExpenses (AddExpenseModal.handleSubmit quietBrowser 7 ⟨"12", "lunch", [1, 2]⟩) =
      [AddExpenseModal.requestData 7 ⟨"12", "lunch", [1, 2]⟩] :=
  ⟨(C4_addExpense_only_with_participants quietBrowser 7 ⟨"12", "lunch", []⟩).1 (Or.inl rfl),
   (C4_addExpense_only_with_participants quietBrowser 7 ⟨"12", "lunch", [1, 2]⟩).2.1
     (by decide)⟩

/-! ## The expense form: the participant list stays a duplicate-free set of members -/

/-- The property of `split_between` that the checkboxes maintain. -/
theorem act_preserves_members (members : List Member) (formData : AddExpenseForm)
    (action : FormAction)
    (hmem : ∀ m, action = FormAction.toggle m → m ∈ members)
    (h : formData.split_between.Nodup ∧
      ∀ id ∈ formData.split_between, id ∈ members.map (fun m => m.id)) :
    (AddExpenseModal.act formData action).split_between.Nodup ∧
      ∀ id ∈ (AddExpenseModal.act formData action).split_between,
        id ∈ members.map (fun m => m.id) := by
  obtain ⟨hnd, hsub⟩ := h
  cases action with
  | amount value => exact ⟨hnd, hsub⟩
  | description value => exact ⟨hnd, hsub⟩
  | toggle member =>
    have hm : member ∈ members := hmem member rfl
    simp only [AddExpenseModal.act, AddExpenseModal.toggle, AddExpenseModal.onChange,
      AddExpenseModal.checked]
    by_cases hc : formData.split_between.contains member.id = true
    · simp only [hc, Bool.not_true, Bool.false_eq_true, if_false]
      refine ⟨hnd.filter _, ?_⟩
      intro id hid
      exact hsub id (List.mem_filter.mp hid).1
    · have hc2 : member.id ∉ formData.split_between := by
        simpa using hc
      simp only [Bool.not_eq_true] at hc
      simp only [hc, Bool.not_false, if_true]
      refine ⟨?_, ?_⟩
      · rw [List.nodup_append]
        refine ⟨hnd, List.nodup_singleton _, ?_⟩
        intro a ha hb
        simp only [List.mem_singleton] at hb
        subst hb
        exact hc2 ha
      · intro id hid
        rcases List.mem_append.mp hid with h1 | h1
        · exact hsub id h1
        · simp only [List.mem_singleton] at h1
          subst h1
          exact List.mem_map_of_mem _ hm

theorem foldl_act_preserves_members (members : List Member) (actions : List FormAction) :
    ∀ (formData : AddExpenseForm),
      (∀ m, FormAction.toggle m ∈ actions → m ∈ members) →
      (formData.split_between.Nodup ∧
        ∀ id ∈ formData.split_between, id ∈ members.map (fun m => m.id)) →
      (actions.foldl AddExpenseModal.act formData).split_between.Nodup ∧
        ∀ id ∈ (actions.foldl AddExpenseModal.act formData).split_between,
          id ∈ members.map (fun m => m.id) := by
  induction actions with
  | nil => intro formData _ h; exact h
  | cons a rest ih =>
    intro formData hmem h
    rw [List.foldl_cons]
    apply ih
    · intro m hm
      exact hmem m (List.mem_cons_of_mem _ hm)
    · apply act_preserves_members members formData a _ h
      intro m hm
      exact hmem m (hm ▸ List.mem_cons_self _ _)

/-- C5: starting from `split_between` = the ids of all members (pairwise distinct), after any
sequence of form actions (typing an amount or a description, clicking the checkbox of a member,
each click reporting the negation of the box's current state) `split_between` has no id twice
and holds only ids of members; hence so does the participant list of every request that
`handleSubmit` sends from such a state. -/
theorem C5_split_between_invariant (members : List Member)
    (hids : (members.map (fun m => m.id)).Nodup) (actions : List FormAction)
    (hact : ∀ m, FormAction.toggle m ∈ actions → m ∈ members) :
    (actions.foldl AddExpenseModal.act
        (AddExpenseModal.initialFormData members)).split_between.Nodup ∧
    (∀ id ∈ (actions.foldl AddExpenseModal.act
        (AddExpenseModal.initialFormData members)).split_between,
      id ∈ members.map (fun m => m.id)) ∧
    (∀ (env : Browser) (groupId : Nat),
      ∀ data ∈ sentExpenses (AddExpenseModal.handleSubmit env groupId
          (actions.foldl AddExpenseModal.act (AddExpenseModal.initialFormData members))),
        data.split_between.Nodup ∧
          ∀ id ∈ data.split_between, id ∈ members.map (fun m => m.id)) := by
  have key := foldl_act_preserves_members members actions
    (AddExpenseModal.initialFormData members) hact
    ⟨hids, fun id hid => hid⟩
  refine ⟨key.1, key.2, ?_⟩
  intro env groupId data hd
  rw [sentExpenses_handleSubmit] at hd
  split at hd
  · simp at hd
  · simp only [List.mem_singleton] at hd
    subst hd
    exact key

/-- Witness of C5: three members; Bob is unticked, Carol unticked and ticked again, then the
form is filled in and submitted. -/
theorem C5_split_between_invariant_witness :
    (([FormAction.toggle ⟨2, "Bob"⟩, .toggle ⟨3, "Carol"⟩, .toggle ⟨3, "Carol"⟩,
        .amount "9", .description "tea"].foldl AddExpenseModal.act
        (AddExpenseModal.initialFormData
          [⟨1, "Alice"⟩, ⟨2, "Bob"⟩, ⟨3, "Carol"⟩])).split_between = [1, 3]) ∧
    ∀ data ∈ sentExpenses (AddExpenseModal.handleSubmit quietBrowser 7
        ([FormAction.toggle ⟨2, "Bob"⟩, .toggle ⟨3, "Carol"⟩, .toggle ⟨3, "Carol"⟩,
          .amount "9", .description "tea"].foldl AddExpenseModal.act
          (AddExpenseModal.initialFormData [⟨1, "Alice"⟩, ⟨2, "Bob"⟩, ⟨3, "Carol"⟩]))),
      data.split_between.Nodup ∧
        ∀ id ∈ data.split_between,
          id ∈ ([⟨1, "Alice"⟩, ⟨2, "Bob"⟩, ⟨3, "Carol"⟩] : List Member).map (fun m => m.id) :=
  ⟨by decide,
   (C5_split_between_invariant [⟨1, "Alice"⟩, ⟨2, "Bob"⟩, ⟨3, "Carol"⟩] (by decide)
      [FormAction.toggle ⟨2, "Bob"⟩, .toggle ⟨3, "Carol"⟩, .toggle ⟨3, "Carol"⟩,
        .amount "9", .description "tea"]
      (by
        intro m hm
        simp only [List.mem_cons, FormAction.toggle.injEq, List.mem_singleton,
          List.not_mem_nil, or_false, reduceCtorEq] at hm
        rcases hm with h | h | h <;> subst h <;> decide)).2.2 quietBrowser 7⟩

/-! ## Numbers read from the amount field -/

theorem two_pow_ilog2Aux_le (fuel : Nat) : ∀ n, 1 ≤ n → 2 ^ ilog2Aux fuel n ≤ n := by
  induction fuel with
  | zero => intro n hn; simpa [ilog2Aux] using hn
  | succ f ih =>
    intro n hn
    unfold ilog2Aux
    split
    · simpa using hn
    · have h2 : 1 ≤ n / 2 := by omega
      have := ih (n / 2) h2
      rw [pow_succ]
      omega

theorem lt_two_pow_ilog2Aux (fuel : Nat) : ∀ n, n ≤ fuel → n < 2 ^ (ilog2Aux fuel n + 1) := by
  induction fuel with
  | zero => intro n hn; simp [ilog2Aux]; omega
  | succ f ih =>
    intro n hn
    unfold ilog2Aux
    split
    · simpa using (by omega : n < 2)
    · have h2 : n / 2 ≤ f := by omega
      have := ih (n / 2) h2
      rw [pow_succ]
      omega

theorem roundHalfEven_one (x : Nat) : roundHalfEven x 1 = x := by
  simp [roundHalfEven, Nat.mod_one]

/-- A positive integer below `2^53` is a binary64 value: rounding returns it unchanged, with
the significand shifted into the top bit. -/
theorem toBinary64_nat (neg : Bool) (v : Nat) (hpos : 0 < v) (hlt : v < 2 ^ 53) :
    toBinary64 neg v 1 = .finite neg (v * 2 ^ (52 - ilog2 v)) ((ilog2 v : Int) - 52) := by
  have hlo : 2 ^ ilog2 v ≤ v := two_pow_ilog2Aux_le v v hpos
  have hhi : v < 2 ^ (ilog2 v + 1) := lt_two_pow_ilog2Aux v v le_rfl
  have he : ilog2 v ≤ 52 := by
    by_contra hc
    have : 2 ^ 53 ≤ 2 ^ ilog2 v := Nat.pow_le_pow_right (by norm_num) (by omega)
    omega
  have h1 : ilog2 1 = 0 := by decide
  have hfl : floorLog2 v 1 = (ilog2 v : Int) := by
    unfold floorLog2
    simp only [h1, Nat.cast_zero, sub_zero, Nat.cast_nonneg, if_true, Int.toNat_ofNat, one_mul]
    rw [if_pos hlo]
  unfold toBinary64
  rw [if_neg (by omega)]
  simp only [hfl]
  have hmax : max (ilog2 v : Int) (-1022) = (ilog2 v : Int) := by omega
  rw [hmax]
  have hsc : scaledSignificand v 1 ((ilog2 v : Int) - 52) = v * 2 ^ (52 - ilog2 v) := by
    unfold scaledSignificand
    by_cases h52 : ilog2 v = 52
    · rw [if_pos (by omega)]
      simp [h52, roundHalfEven_one]
    · rw [if_neg (by omega)]
      rw [roundHalfEven_one]
      congr 2
      omega
  rw [hsc]
  have hm : v * 2 ^ (52 - ilog2 v) < 2 ^ 53 := by
    calc v * 2 ^ (52 - ilog2 v) < 2 ^ (ilog2 v + 1) * 2 ^ (52 - ilog2 v) :=
          Nat.mul_lt_mul_of_pos_right hhi (by positivity)
      _ = 2 ^ 53 := by rw [← pow_add]; congr 1; omega
  have hne : ¬ (v * 2 ^ (52 - ilog2 v) = 2 ^ 53) := by omega
  simp only [hne, if_false]
  rw [if_neg (by omega)]

theorem digit_not_special (c : Char) (h : isDecimalDigit c = true) :
    isJSWhiteSpace c = false ∧ c ≠ '-' ∧ c ≠ '+' ∧ c ≠ 'I' := by
  simp only [isDecimalDigit, decide_eq_true_eq] at h
  refine ⟨?_, ?_, ?_, ?_⟩
  · simp only [isJSWhiteSpace, decide_eq_false_iff_not]
    omega
  · rintro rfl
    simp at h
  · rintro rfl
    simp at h
  · rintro rfl
    simp at h

theorem takeSign_digit (c : Char) (cs : List Char) (h : isDecimalDigit c = true) :
    takeSign (c :: cs) = (false, c :: cs) := by
  obtain ⟨_, h1, h2, _⟩ := digit_not_special c h
  unfold takeSign
  split
  · rename_i heq
    simp only [List.cons.injEq] at heq
    exact absurd heq.1 h1
  · rename_i heq
    simp only [List.cons.injEq] at heq
    exact absurd heq.1 h2
  · rfl

/-- On a non-empty run of decimal digits `parseFloat` returns the Number nearest to the
integer the digits spell. -/
theorem parseFloat_digits (ds : List Char) (hne : ds ≠ [])
    (hd : ∀ c ∈ ds, isDecimalDigit c = true) :
    parseFloat (String.mk ds) = toBinary64 false (digitsValue ds) 1 := by
  obtain ⟨c, cs, rfl⟩ := List.exists_cons_of_ne_nil hne
  have hc : isDecimalDigit c = true := hd c (List.mem_cons_self _ _)
  obtain ⟨hw, _, _, hI⟩ := digit_not_special c hc
  have htake : (c :: cs).takeWhile isDecimalDigit = c :: cs :=
    List.takeWhile_eq_self_iff.mpr hd
  have hdrop : (c :: cs).dropWhile isDecimalDigit = [] :=
    List.dropWhile_eq_nil_iff.mpr hd
  have hpre : "Infinity".toList.isPrefixOf (c :: cs) = false := by
    have : "Infinity".toList = 'I' :: "nfinity".toList := rfl
    rw [this, List.isPrefixOf]
    simp [Ne.symm hI]
  unfold parseFloat
  simp only [String.toList]
  rw [List.dropWhile_cons_of_neg (by simp [hw])]
  rw [takeSign_digit c cs hc]
  simp only [hpre, Bool.false_eq_true, if_false, htake, hdrop]
  simp [exponentPart, decimalToNumber]
  intro h
  exact absurd h (Ne.symm hI)

theorem digitsValue_foldl_lt (ds : List Char) (hd : ∀ c ∈ ds, isDecimalDigit c = true) :
    ∀ acc k, acc < 10 ^ k →
      ds.foldl (fun acc c => 10 * acc + (c.toNat - 48)) acc < 10 ^ (k + ds.length) := by
  induction ds with
  | nil => intro acc k h; simpa using h
  | cons c cs ih =>
    intro acc k h
    have hc := hd c (List.mem_cons_self _ _)
    simp only [isDecimalDigit, decide_eq_true_eq] at hc
    rw [List.foldl_cons, List.length_cons]
    have := ih (fun x hx => hd x (List.mem_cons_of_mem _ hx)) (10 * acc + (c.toNat - 48)) (k + 1)
      (by rw [pow_succ]; omega)
    rw [show k + (cs.length + 1) = k + 1 + cs.length by omega]
    exact this

theorem digitsValue_lt (ds : List Char) (hd : ∀ c ∈ ds, isDecimalDigit c = true) :
    digitsValue ds < 10 ^ ds.length := by
  have := digitsValue_foldl_lt ds hd 0 0 (by norm_num)
  simpa [digitsValue] using this

/-- The Number `parseFloat` returns for a run of one to fifteen decimal digits is the integer
the digits spell: it has no fractional part, and it is positive unless all digits are `0`. -/
theorem parseFloat_short_digits (ds : List Char) (hne : ds ≠ [])
    (hd : ∀ c ∈ ds, isDecimalDigit c = true) (hlen : ds.length ≤ 15) :
    (parseFloat (String.mk ds)).isInteger = true ∧
    (parseFloat (String.mk ds)).toRat = some (digitsValue ds : ℚ) ∧
    ((parseFloat (String.mk ds)).isPositive = true ↔ 0 < digitsValue ds) := by
  rw [parseFloat_digits ds hne hd]
  have hv : digitsValue ds < 2 ^ 53 := by
    have h1 := digitsValue_lt ds hd
    have h2 : 10 ^ ds.length ≤ 10 ^ 15 := Nat.pow_le_pow_right (by norm_num) hlen
    have h3 : (10 : Nat) ^ 15 < 2 ^ 53 := by norm_num
    omega
  rcases Nat.eq_zero_or_pos (digitsValue ds) with h0 | hpos
  · rw [h0]
    simp only [toBinary64, if_true, JSNumber.isInteger, JSNumber.toRat, JSNumber.isPositive,
      Nat.zero_mod, Nat.cast_zero, mul_zero, zero_mul, lt_irrefl, decide_False, Bool.and_false]
    simp only [Bool.false_eq_true, iff_self, and_true]
    split <;> simp only [decide_True, and_self]
  · rw [toBinary64_nat false _ hpos hv]
    have hlo : 2 ^ ilog2 (digitsValue ds) ≤ digitsValue ds :=
      two_pow_ilog2Aux_le _ _ hpos
    have he : ilog2 (digitsValue ds) ≤ 52 := by
      by_contra hc
      have : 2 ^ 53 ≤ 2 ^ ilog2 (digitsValue ds) :=
        Nat.pow_le_pow_right (by norm_num) (by omega)
      omega
    refine ⟨?_, ?_, ?_⟩
    · simp only [JSNumber.isInteger]
      split
      · rfl
      · have : (-((ilog2 (digitsValue ds) : Int) - 52)).toNat = 52 - ilog2 (digitsValue ds) := by
          omega
        rw [this]
        simp
    · simp only [JSNumber.toRat, Bool.false_eq_true, if_false, one_mul, Option.some.injEq]
      have h2 : ((ilog2 (digitsValue ds) : Int) - 52) =
          -((52 - ilog2 (digitsValue ds) : Nat) : Int) := by
        omega
      rw [h2, zpow_neg, zpow_natCast]
      push_cast
      field_simp
    · simp only [JSNumber.isPositive, Bool.not_false, Bool.true_and, decide_eq_true_eq]
      constructor
      · intro _; exact hpos
      · intro _; positivity

/-- C2, refuted as stated: with the amount string `12.5` both forms send the Number 12.5
(`7036874417766400 * 2^-49 = 25/2`), which has a fractional part. -/
theorem C2_counterexample :
    sentExpenses (AddExpenseModal.handleSubmit quietBrowser 7 ⟨"12.5", "lunch", [1, 2]⟩) =
      [⟨7, .finite false 7036874417766400 (-49), "lunch", [1, 2]⟩] ∧
    (sentSettlements (SettleModal.handleSubmit quietBrowser 7 ⟨"2", "12.5"⟩)).map
      (fun data => data.amount) = [.finite false 7036874417766400 (-49)] ∧
    (JSNumber.finite false 7036874417766400 (-49)).isInteger = false ∧
    (JSNumber.finite false 7036874417766400 (-49)).toRat = some (25 / 2) := by
  refine ⟨by decide, by decide, by decide, ?_⟩
  simp only [JSNumber.toRat, Bool.false_eq_true, if_false, Option.some.injEq]
  norm_num

/-- C2, amended: every record-expense and record-settlement request carries as `amount` the
Number that `parseFloat` returns for the amount string as typed, not converted to minor
units; when that string is a run of one to fifteen decimal digits the amount sent is the
integer the digits spell and has no fractional part. -/
theorem C2_amount_is_parseFloat_of_input (env : Browser) (groupId : Nat)
    (expenseForm : AddExpenseForm) (settleForm : SettleForm) :
    (∀ data ∈ sentExpenses (AddExpenseModal.handleSubmit env groupId expenseForm),
      data.amount = parseFloat expenseForm.amount ∧
      ((∀ c ∈ expenseForm.amount.toList, isDecimalDigit c = true) →
        expenseForm.amount.length ≤ 15 →
        data.amount.isInteger = true ∧
          data.amount.toRat = some (digitsValue expenseForm.amount.toList : ℚ))) ∧
    (∀ data ∈ sentSettlements (SettleModal.handleSubmit env groupId settleForm),
      data.amount = parseFloat settleForm.amount ∧
      ((∀ c ∈ settleForm.amount.toList, isDecimalDigit c = true) →
        settleForm.amount.length ≤ 15 →
        data.amount.isInteger = true ∧
          data.amount.toRat = some (digitsValue settleForm.amount.toList : ℚ))) := by
  constructor
  · intro data hd
    rw [sentExpenses_handleSubmit] at hd
    split at hd
    · simp at hd
    · rename_i hg
      simp only [List.mem_singleton] at hd
      subst hd
      refine ⟨rfl, ?_⟩
      intro hdig hlen
      have hne : expenseForm.amount.toList ≠ [] := by
        intro h0
        apply hg
        left
        exact String.ext h0
      have := parseFloat_short_digits expenseForm.amount.toList hne hdig hlen
      exact ⟨this.1, this.2.1⟩
  · intro data hd
    rw [sentSettlements_handleSubmit] at hd
    split at hd
    · simp at hd
    · rename_i hg
      simp only [List.mem_singleton] at hd
      subst hd
      refine ⟨rfl, ?_⟩
      intro hdig hlen
      have hne : settleForm.amount.toList ≠ [] := by
        intro h0
        apply hg
        right
        exact String.ext h0
      have := parseFloat_short_digits settleForm.amount.toList hne hdig hlen
      exact ⟨this.1, this.2.1⟩

/-- Witness of C2 (amended): the amount string `1250` is sent as the integer 1250. -/
theorem C2_amount_is_parseFloat_of_input_witness :
    sentExpenses (AddExpenseModal.handleSubmit quietBrowser 7 ⟨"1250", "lunch", [1, 2]⟩) =
      [AddExpenseModal.requestData 7 ⟨"1250", "lunch", [1, 2]⟩] ∧
    (AddExpenseModal.requestData 7 ⟨"1250", "lunch", [1, 2]⟩).amount.isInteger = true ∧
    (AddExpenseModal.requestData 7 ⟨"1250", "lunch", [1, 2]⟩).amount.toRat =
      some ((1250 : Nat) : ℚ) :=
  ⟨by decide,
   ((C2_amount_is_parseFloat_of_input quietBrowser 7 ⟨"1250", "lunch", [1, 2]⟩
      ⟨"2", "1250"⟩).1 (AddExpenseModal.requestData 7 ⟨"1250", "lunch", [1, 2]⟩)
      (by decide)).2 (by decide) (by decide)⟩

/-- C3, refuted as stated: the expense form sends the amount string `-5` as the negative
Number -5, and the settle form sends `0` as 0; neither is strictly positive. -/
theorem C3_counterexample :
    sentExpenses (AddExpenseModal.handleSubmit quietBrowser 7 ⟨"-5", "lunch", [1, 2]⟩) =
      [⟨7, .finite true 5629499534213120 (-50), "lunch", [1, 2]⟩] ∧
    (JSNumber.finite true 5629499534213120 (-50)).isPositive = false ∧
    (sentSettlements (SettleModal.handleSubmit quietBrowser 7 ⟨"2", "0"⟩)).map
      (fun data => data.amount) = [.finite false 0 (-1074)] ∧
    (JSNumber.finite false 0 (-1074)).isPositive = false := by
  refine ⟨by decide, by decide, by decide, by decide⟩

/-- C3, amended: a request is sent only when the amount string is non-empty, and the amount
sent is the Number `parseFloat` returns for it, so it is strictly positive exactly when that
Number is; in particular it is strictly positive when the string is a run of one to fifteen
decimal digits that are not all `0`.  The forms make no other check of the amount. -/
theorem C3_amount_positive_iff_parsed_positive (env : Browser) (groupId : Nat)
    (expenseForm : AddExpenseForm) (settleForm : SettleForm) :
    (∀ data ∈ sentExpenses (AddExpenseModal.handleSubmit env groupId expenseForm),
      expenseForm.amount ≠ "" ∧
      (data.amount.isPositive = true ↔ (parseFloat expenseForm.amount).isPositive = true) ∧
      ((∀ c ∈ expenseForm.amount.toList, isDecimalDigit c = true) →
        expenseForm.amount.length ≤ 15 → 0 < digitsValue expenseForm.amount.toList →
        data.amount.isPositive = true)) ∧
    (∀ data ∈ sentSettlements (SettleModal.handleSubmit env groupId settleForm),
      settleForm.amount ≠ "" ∧
      (data.amount.isPositive = true ↔ (parseFloat settleForm.amount).isPositive = true) ∧
      ((∀ c ∈ settleForm.amount.toList, isDecimalDigit c = true) →
        settleForm.amount.length ≤ 15 → 0 < digitsValue settleForm.amount.toList →
        data.amount.isPositive = true)) := by
  constructor
  · intro data hd
    rw [sentExpenses_handleSubmit] at hd
    split at hd
    · simp at hd
    · rename_i hg
      simp only [List.mem_singleton] at hd
      subst hd
      have hne : expenseForm.amount ≠ "" := fun h => hg (Or.inl h)
      refine ⟨hne, Iff.rfl, ?_⟩
      intro hdig hlen hpos
      have hne2 : expenseForm.amount.toList ≠ [] := fun h0 => hne (String.ext h0)
      exact (parseFloat_short_digits expenseForm.amount.toList hne2 hdig hlen).2.2.mpr hpos
  · intro data hd
    rw [sentSettlements_handleSubmit] at hd
    split at hd
    · simp at hd
    · rename_i hg
      simp only [List.mem_singleton] at hd
      subst hd
      have hne : settleForm.amount ≠ "" := fun h => hg (Or.inr h)
      refine ⟨hne, Iff.rfl, ?_⟩
      intro hdig hlen hpos
      have hne2 : settleForm.amount.toList ≠ [] := fun h0 => hne (String.ext h0)
      exact (parseFloat_short_digits settleForm.amount.toList hne2 hdig hlen).2.2.mpr hpos

/-- Witness of C3 (amended): the amount string `300` typed in the settle form is sent as a
strictly positive amount. -/
theorem C3_amount_positive_iff_parsed_positive_witness :
    sentSettlements (SettleModal.handleSubmit quietBrowser 7 ⟨"2", "300"⟩) =
      [SettleModal.requestData 7 ⟨"2", "300"⟩] ∧
    (SettleModal.requestData 7 ⟨"2", "300"⟩).amount.isPositive = true :=
  ⟨by decide,
   ((C3_amount_positive_iff_parsed_positive quietBrowser 7 ⟨"300", "lunch", [1]⟩
      ⟨"2", "300"⟩).2 (SettleModal.requestData 7 ⟨"2", "300"⟩) (by decide)).2.2
      (by decide) (by decide) (by decide)⟩

/-! ## `api.request`: what the caller is told about a failure -/

/-- Where `api.request` does report the server's words: a failed response whose body is an
object with a non-empty string `detail` is thrown as an `Error` with that very message; a
body that is not JSON, or an object without `detail` (or with an empty one), gives the message
`Request failed`; and a successful response hands back the outcome of `response.json()`. -/
theorem handleResponse_reports_string_detail (numberToString : JSNumber → String)
    (fields : List (String × Json)) (d : String) (parseError : JSError)
    (body : Except JSError Json) :
    (fields.lookup "detail" = some (.str d) → d ≠ "" →
      api.handleResponse numberToString { ok := false, json := .ok (.obj fields) } =
        .error ⟨"Error", d⟩) ∧
    (fields.lookup "detail" = none ∨ fields.lookup "detail" = some (.str "") →
      api.handleResponse numberToString { ok := false, json := .ok (.obj fields) } =
        .error ⟨"Error", "Request failed"⟩) ∧
    api.handleResponse numberToString { ok := false, json := .error parseError } =
      .error ⟨"Error", "Request failed"⟩ ∧
    api.handleResponse numberToString { ok := true, json := body } = body := by
  refine ⟨?_, ?_, ?_, ?_⟩
  · intro h hd
    simp [api.handleResponse, Json.detail, h, Json.truthy, hd, Json.toJSString]
  · intro h
    rcases h with h | h <;>
      simp [api.handleResponse, Json.detail, h, Json.truthy]
  · simp [api.handleResponse, Json.detail]
  · simp [api.handleResponse]

/-- C10, the code at the failing inputs: when the server answers a record-expense request with
the validation body `{"detail": [{...}]}` (a non-empty `detail`), `api.request` throws an
`Error` whose message is the text `[object Object]`, and that is what
`AddExpenseModal.handleSubmit` shows in its alert; when the body of a failed response is the
JSON value `null`, reading `error.detail` throws a `TypeError` and no `Request failed` error
is produced. -/
theorem C10_request_loses_structured_detail :
    api.request rejectingBrowser "/expenses" = .error ⟨"Error", "[object Object]"⟩ ∧
    AddExpenseModal.handleSubmit rejectingBrowser 7 ⟨"12", "lunch", [1, 2]⟩ =
      [.fetch (api.fetchCall none "/expenses" (RequestInit.mk (some "POST")
          (some (.addExpense (AddExpenseModal.requestData 7 ⟨"12", "lunch", [1, 2]⟩))) [])),
        .alert "[object Object]"] ∧
    api.handleResponse (fun _ => "") { ok := false, json := .ok .null } =
      .error ⟨"TypeError", "Cannot read properties of null (reading 'detail')"⟩ := by
  refine ⟨rfl, by decide, rfl⟩

/-! ## BalanceCalculator: shares -/

namespace Core

theorem distribute_keys (base : Int) (us : List UserId) :
    ∀ extra, (distribute base extra us).map Prod.fst = us := by
  induction us with
  | nil => intro extra; rfl
  | cons u rest ih => intro extra; simp [distribute, ih]

theorem distribute_getElem? (base : Int) (us : List UserId) :
    ∀ extra i, i < us.length →
      ((distribute base extra us).map Prod.snd)[i]? =
        some (base + if i < extra then 1 else 0) := by
  induction us with
  | nil => intro extra i h; simp at h
  | cons u rest ih =>
    intro extra i h
    cases i with
    | zero =>
      simp only [distribute, List.map_cons, List.getElem?_cons_zero, Option.some.injEq]
      split <;> simp
    | succ j =>
      simp only [distribute, List.map_cons, List.getElem?_cons_succ]
      rw [ih (extra - 1) j (by simpa using h)]
      congr 2
      by_cases hj : j + 1 < extra
      · rw [if_pos hj, if_pos (by omega)]
      · rw [if_neg hj, if_neg (by omega)]

theorem distribute_sum (base : Int) (us : List UserId) :
    ∀ extra, ((distribute base extra us).map Prod.snd).sum =
      base * us.length + (min extra us.length : Nat) := by
  induction us with
  | nil => intro extra; simp [distribute]
  | cons u rest ih =>
    intro extra
    simp only [distribute, List.map_cons, List.sum_cons, ih, List.length_cons]
    by_cases h : 0 < extra
    · rw [if_pos h]
      have : min extra (rest.length + 1) = min (extra - 1) rest.length + 1 := by omega
      rw [this]
      push_cast
      ring
    · have h0 : extra = 0 := by omega
      subst h0
      simp
      ring

theorem shares_keys (amount : Int) (participants : List UserId) :
    (shares amount participants).map Prod.fst =
      participants.insertionSort (fun a b => a ≤ b) := by
  simp [shares, distribute_keys]

theorem shares_sum (amount : Int) (participants : List UserId) (hne : participants ≠ []) :
    ((shares amount participants).map Prod.snd).sum = amount := by
  have hlen : 0 < participants.length := List.length_pos.mpr hne
  have hn : (0 : Int) < (participants.length : Int) := by exact_mod_cast hlen
  simp only [shares, distribute_sum, List.length_insertionSort]
  have h1 : 0 ≤ amount % (participants.length : Int) := Int.emod_nonneg _ (by omega)
  have h2 : amount % (participants.length : Int) < participants.length := Int.emod_lt_of_pos _ hn
  have h3 : ((min (amount % (participants.length : Int)).toNat participants.length : Nat) : Int) =
      amount % (participants.length : Int) := by
    omega
  rw [h3]
  have := Int.ediv_add_emod amount (participants.length : Int)
  linarith [Int.mul_comm (amount / (participants.length : Int)) (participants.length : Int)]

/-- C6: for every expense with integer amount `a` (positive in particular) and `n ≥ 1`
participants, the shares go to the participants in ascending user id; the share at position
`i` is `floor (a / n)`, plus one minor unit when `i < a mod n`; the shares sum to exactly `a`;
and 1000 split among the ids 1, 2, 3 gives 334, 333, 333. -/
theorem C6_shares_floor_plus_remainder (amount : Int) (participants : List UserId)
    (hne : participants ≠ []) :
    (shares amount participants).map Prod.fst =
      participants.insertionSort (fun a b => a ≤ b) ∧
    (participants.insertionSort (fun a b => a ≤ b)).Sorted (fun a b => a ≤ b) ∧
    (participants.insertionSort (fun a b => a ≤ b)).Perm participants ∧
    (∀ i, i < participants.length →
      ((shares amount participants).map Prod.snd)[i]? =
        some (amount / (participants.length : Int) +
          if (i : Int) < amount % (participants.length : Int) then 1 else 0)) ∧
    ((shares amount participants).map Prod.snd).sum = amount ∧
    shares 1000 [1, 2, 3] = [(1, 334), (2, 333), (3, 333)] := by
  refine ⟨shares_keys amount participants, List.sorted_insertionSort _ _,
    List.perm_insertionSort _ _, ?_, shares_sum amount participants hne, by decide⟩
  intro i hi
  have hn : (0 : Int) < (participants.length : Int) := by
    exact_mod_cast List.length_pos.mpr hne
  have h1 : 0 ≤ amount % (participants.length : Int) := Int.emod_nonneg _ (by omega)
  simp only [shares, List.length_insertionSort]
  rw [distribute_getElem? _ _ _ i (by simpa using hi)]
  congr 2
  by_cases h : (i : Int) < amount % (participants.length : Int)
  · rw [if_pos h, if_pos (by omega)]
  · rw [if_neg h, if_neg (by omega)]

/-- Witness of C6: 1000 split among the ids 3, 1, 2. -/
theorem C6_shares_floor_plus_remainder_witness :
    (shares 1000 [3, 1, 2]).map Prod.fst = [1, 2, 3] ∧
    ((shares 1000 [3, 1, 2]).map Prod.snd).sum = 1000 :=
  ⟨by decide, (C6_shares_floor_plus_remainder 1000 [3, 1, 2] (by decide)).2.2.2.2.1⟩

/-! ## Ledger: a rejected expense leaves the store alone -/

/-- C9: recording an expense that names a participant who is not a member of the (existing)
group fails with `ValidationError`, and the store returned is the store given: `readAll`
yields the same sequence, of the same length, as before the call. -/
theorem C9_non_member_participant_rejected (L : Ledger) (g : Group) (groupId : GroupId)
    (payer : UserId) (amount : Int) (description : String) (participants : List UserId)
    (now : Nat) (p : UserId)
    (hg : L.findGroup groupId = some g) (hp : p ∈ participants) (hnot : p ∉ g.members) :
    (L.appendExpense groupId payer amount description participants now).1 =
      .error .ValidationError ∧
    (L.appendExpense groupId payer amount description participants now).2 = L ∧
    (L.appendExpense groupId payer amount description participants now).2.readAll groupId =
      L.readAll groupId ∧
    ∃ entries, L.readAll groupId = .ok entries ∧
      (L.appendExpense groupId payer amount description participants now).2.readAll groupId =
        .ok entries := by
  have hcond : amount ≤ 0 ∨ participants = [] ∨ payer ∉ g.members ∨
      ∃ q ∈ participants, q ∉ g.members := Or.inr (Or.inr (Or.inr ⟨p, hp, hnot⟩))
  have hres : L.appendExpense groupId payer amount description participants now =
      (.error .ValidationError, L) := by
    unfold Ledger.appendExpense
    rw [hg]
    simp only []
    rw [if_pos hcond]
  rw [hres]
  refine ⟨rfl, rfl, rfl, ?_⟩
  refine ⟨L.entries.filter (fun e => e.groupId = groupId), ?_, ?_⟩ <;>
    simp [Ledger.readAll, hg]

/-- Witness of C9 (Scenario D): in the group of Alice, Bob and Carol (ids 1, 2, 3) with one
expense on record, an expense naming user 9 is rejected and the ledger keeps its one entry. -/
theorem C9_non_member_participant_rejected_witness :
    ((Ledger.run [.createGroup "G" 1, .addMember 0 2, .addMember 0 3,
        .recordExpense 0 1 900 "dinner" [1, 2, 3] 10]).appendExpense 0 1 500 "taxi" [1, 9] 11).1 =
      .error .ValidationError ∧
    ((Ledger.run [.createGroup "G" 1, .addMember 0 2, .addMember 0 3,
        .recordExpense 0 1 900 "dinner" [1, 2, 3] 10]).appendExpense 0 1 500 "taxi" [1, 9] 11).2 =
      Ledger.run [.createGroup "G" 1, .addMember 0 2, .addMember 0 3,
        .recordExpense 0 1 900 "dinner" [1, 2, 3] 10] :=
  let h := C9_non_member_participant_rejected
    (Ledger.run [.createGroup "G" 1, .addMember 0 2, .addMember 0 3,
      .recordExpense 0 1 900 "dinner" [1, 2, 3] 10])
    ⟨0, "G", [1, 2, 3]⟩ 0 1 500 "taxi" [1, 9] 11 9 (by decide) (by decide) (by decide)
  ⟨h.1, h.2.1⟩

/-! ## BalanceCalculator: conservation of money -/

theorem credit_keys (b : Balances) (u : UserId) (x : Int) :
    (credit b u x).map Prod.fst = b.map Prod.fst := by
  simp only [credit, List.map_map]
  apply List.map_congr_left
  intro p _
  simp only [Function.comp]
  split <;> rfl

theorem credit_of_not_mem (b : Balances) (u : UserId) (x : Int) (h : u ∉ b.map Prod.fst) :
    credit b u x = b := by
  induction b with
  | nil => rfl
  | cons p rest ih =>
    simp only [List.map_cons, List.mem_cons, not_or] at h
    have ih2 : credit rest u x = rest := ih h.2
    simp only [credit, List.map_cons] at ih2 ⊢
    rw [ih2, if_neg (fun hp => h.1 hp.symm)]

theorem credit_sum (b : Balances) (u : UserId) (x : Int) (hnd : (b.map Prod.fst).Nodup)
    (hu : u ∈ b.map Prod.fst) :
    ((credit b u x).map Prod.snd).sum = (b.map Prod.snd).sum + x := by
  induction b with
  | nil => simp at hu
  | cons p rest ih =>
    simp only [List.map_cons, List.nodup_cons] at hnd
    by_cases hp : p.1 = u
    · have hnot : u ∉ rest.map Prod.fst := hp ▸ hnd.1
      have hrest := credit_of_not_mem rest u x hnot
      simp only [credit, List.map_cons] at hrest ⊢
      rw [hrest, if_pos hp]
      simp only [List.sum_cons]
      ring
    · have hu2 : u ∈ rest.map Prod.fst := by
        simp only [List.map_cons, List.mem_cons] at hu
        rcases hu with h | h
        · exact absurd h.symm hp
        · exact h
      have := ih hnd.2 hu2
      simp only [credit, List.map_cons] at this ⊢
      rw [if_neg hp]
      simp only [List.sum_cons, this]
      ring

theorem debit_fold_keys (sh : List (UserId × Int)) :
    ∀ b : Balances, (sh.foldl (fun acc p => debit acc p.1 p.2) b).map Prod.fst =
      b.map Prod.fst := by
  induction sh with
  | nil => intro b; rfl
  | cons p rest ih =>
    intro b
    rw [List.foldl_cons, ih, debit, credit_keys]

theorem debit_fold_sum (sh : List (UserId × Int)) :
    ∀ b : Balances, (b.map Prod.fst).Nodup → (∀ p ∈ sh, p.1 ∈ b.map Prod.fst) →
      ((sh.foldl (fun acc p => debit acc p.1 p.2) b).map Prod.snd).sum =
        (b.map Prod.snd).sum - (sh.map Prod.snd).sum := by
  induction sh with
  | nil => intro b _ _; simp
  | cons p rest ih =>
    intro b hnd hmem
    rw [List.foldl_cons, ih]
    · rw [debit, credit_sum b p.1 (-p.2) hnd (hmem p (List.mem_cons_self _ _))]
      simp only [List.map_cons, List.sum_cons]
      ring
    · rw [debit, credit_keys]; exact hnd
    · intro q hq
      rw [debit, credit_keys]
      exact hmem q (List.mem_cons_of_mem _ hq)

theorem applyEntry_keys (b : Balances) (e : LedgerEntry) :
    (applyEntry b e).map Prod.fst = b.map Prod.fst := by
  cases e with
  | expense e => simp only [applyEntry, debit_fold_keys, credit_keys]
  | settlement s => simp only [applyEntry, applySettlement, debit, credit_keys]

/-- One validated entry moves money between members without creating or destroying any. -/
theorem applyEntry_sum (b : Balances) (e : LedgerEntry) (hnd : (b.map Prod.fst).Nodup)
    (hok : EntryOK (b.map Prod.fst) e) :
    ((applyEntry b e).map Prod.snd).sum = (b.map Prod.snd).sum := by
  cases e with
  | expense e =>
    obtain ⟨hpayer, hne, hpart⟩ := hok
    simp only [applyEntry]
    rw [debit_fold_sum, credit_sum b e.payer e.amount hnd hpayer, shares_sum e.amount _ hne]
    · ring
    · rw [credit_keys]; exact hnd
    · intro p hp
      rw [credit_keys]
      have h1 : p.1 ∈ (shares e.amount e.participants).map Prod.fst :=
        List.mem_map_of_mem _ hp
      rw [shares_keys] at h1
      exact hpart p.1 ((List.perm_insertionSort _ _).mem_iff.mp h1)
  | settlement s =>
    obtain ⟨hpayer, hpayee⟩ := hok
    simp only [applyEntry, applySettlement, debit]
    rw [credit_sum _ s.payee (-s.amount) (by rw [credit_keys]; exact hnd)
      (by rw [credit_keys]; exact hpayee), credit_sum b s.payer s.amount hnd hpayer]
    ring

theorem foldl_applyEntry_sum (es : List LedgerEntry) :
    ∀ b : Balances, (b.map Prod.fst).Nodup → (∀ e ∈ es, EntryOK (b.map Prod.fst) e) →
      ((es.foldl applyEntry b).map Prod.snd).sum = (b.map Prod.snd).sum := by
  induction es with
  | nil => intro b _ _; rfl
  | cons e rest ih =>
    intro b hnd hok
    rw [List.foldl_cons, ih, applyEntry_sum b e hnd (hok e (List.mem_cons_self _ _))]
    · rw [applyEntry_keys]; exact hnd
    · intro e2 he2
      rw [applyEntry_keys]
      exact hok e2 (List.mem_cons_of_mem _ he2)

theorem EntryOK_mono (m1 m2 : List UserId) (e : LedgerEntry) (hsub : ∀ u ∈ m1, u ∈ m2)
    (h : EntryOK m1 e) : EntryOK m2 e := by
  cases e with
  | expense e => exact ⟨hsub _ h.1, h.2.1, fun p hp => hsub _ (h.2.2 p hp)⟩
  | settlement s => exact ⟨hsub _ h.1, hsub _ h.2⟩

theorem wellFormed_empty : Ledger.empty.WellFormed := by
  constructor
  · intro g hg; simp [Ledger.empty] at hg
  · intro e he; simp [Ledger.empty] at he

theorem wellFormed_createGroup (L : Ledger) (name : String) (creator : UserId)
    (h : L.WellFormed) : (L.createGroup name creator).2.WellFormed := by
  obtain ⟨h1, h2⟩ := h
  constructor
  · intro g hg
    simp only [Ledger.createGroup, List.mem_append, List.mem_singleton] at hg
    rcases hg with hg | hg
    · exact h1 g hg
    · subst hg; simp
  · intro e he
    obtain ⟨g, hg, hok⟩ := h2 e he
    refine ⟨g, ?_, hok⟩
    simp only [Ledger.findGroup] at hg
    simp [Ledger.createGroup, Ledger.findGroup, List.find?_append, hg]

theorem wellFormed_addMember (L : Ledger) (groupId : GroupId) (user : UserId)
    (h : L.WellFormed) : (L.addMember groupId user).2.WellFormed := by
  obtain ⟨h1, h2⟩ := h
  unfold Ledger.addMember
  cases hf : L.findGroup groupId with
  | none => exact ⟨h1, h2⟩
  | some g0 =>
    simp only []
    constructor
    · intro g hg
      simp only [List.mem_map] at hg
      obtain ⟨g1, hg1, rfl⟩ := hg
      split
      · rename_i hc
        simp only []
        rw [List.nodup_append]
        refine ⟨h1 g1 hg1, List.nodup_singleton _, ?_⟩
        intro a ha hb
        simp only [List.mem_singleton] at hb
        subst hb
        exact hc.2 ha
      · exact h1 g1 hg1
    · intro e he
      obtain ⟨g, hg, hok⟩ := h2 e he
      simp only [Ledger.findGroup] at hg
      refine ⟨if g.id = groupId ∧ user ∉ g.members then
        { g with members := g.members ++ [user] } else g, ?_, ?_⟩
      · simp only [Ledger.findGroup, List.find?_map]
        have hcomp : ((fun g : Group => decide (g.id = e.groupId)) ∘ fun g : Group =>
            if g.id = groupId ∧ user ∉ g.members then
              { g with members := g.members ++ [user] } else g) =
            fun g : Group => decide (g.id = e.groupId) := by
          funext g2
          simp only [Function.comp]
          split <;> rfl
        rw [hcomp, hg]
        rfl
      · split
        · exact EntryOK_mono _ _ e (fun u hu => List.mem_append_left _ hu) hok
        · exact hok

theorem wellFormed_appendExpense (L : Ledger) (groupId : GroupId) (payer : UserId)
    (amount : Int) (description : String) (participants : List UserId) (now : Nat)
    (h : L.WellFormed) :
    (L.appendExpense groupId payer amount description participants now).2.WellFormed := by
  obtain ⟨h1, h2⟩ := h
  unfold Ledger.appendExpense
  cases hf : L.findGroup groupId with
  | none => exact ⟨h1, h2⟩
  | some g =>
    simp only []
    split
    · exact ⟨h1, h2⟩
    · rename_i hc
      simp only [not_or, not_exists, not_and, not_not] at hc
      refine ⟨h1, ?_⟩
      intro e he
      simp only [List.mem_append, List.mem_singleton] at he
      rcases he with he | he
      · exact h2 e he
      · subst he
        exact ⟨g, hf, hc.2.2.1, hc.2.1, hc.2.2.2⟩

theorem wellFormed_appendSettlement (L : Ledger) (groupId : GroupId) (payer payee : UserId)
    (amount : Int) (now : Nat) (h : L.WellFormed) :
    (L.appendSettlement groupId payer payee amount now).2.WellFormed := by
  obtain ⟨h1, h2⟩ := h
  unfold Ledger.appendSettlement
  cases hf : L.findGroup groupId with
  | none => exact ⟨h1, h2⟩
  | some g =>
    simp only []
    split
    · exact ⟨h1, h2⟩
    · rename_i hc
      simp only [not_or, not_not] at hc
      refine ⟨h1, ?_⟩
      intro e he
      simp only [List.mem_append, List.mem_singleton] at he
      rcases he with he | he
      · exact h2 e he
      · subst he
        exact ⟨g, hf, hc.2.2.1, hc.2.2.2⟩

theorem wellFormed_step (L : Ledger) (c : Command) (h : L.WellFormed) :
    (L.step c).WellFormed := by
  cases c with
  | createGroup name creator => exact wellFormed_createGroup L name creator h
  | addMember groupId user => exact wellFormed_addMember L groupId user h
  | recordExpense groupId payer amount description participants now =>
    exact wellFormed_appendExpense L groupId payer amount description participants now h
  | recordSettlement groupId payer payee amount now =>
    exact wellFormed_appendSettlement L groupId payer payee amount now h

theorem wellFormed_foldl (commands : List Command) :
    ∀ L : Ledger, L.WellFormed → (commands.foldl Ledger.step L).WellFormed := by
  induction commands with
  | nil => intro L h; exact h
  | cons c rest ih => intro L h; exact ih _ (wellFormed_step L c h)

theorem wellFormed_run (commands : List Command) : (Ledger.run commands).WellFormed :=
  wellFormed_foldl commands Ledger.empty wellFormed_empty

/-- In a well-formed store the balances of every existing group sum to zero. -/
theorem computeBalances_sum_zero (L : Ledger) (h : L.WellFormed) (g : Group)
    (hg : g ∈ L.groups) :
    ∃ balances, computeBalances L g.id = .ok balances ∧ (balances.map Prod.snd).sum = 0 := by
  obtain ⟨h1, h2⟩ := h
  have hsome : (L.findGroup g.id).isSome = true := by
    simp only [Ledger.findGroup, List.find?_isSome]
    exact ⟨g, hg, by simp⟩
  obtain ⟨g1, hg1⟩ := Option.isSome_iff_exists.mp hsome
  have hg1mem : g1 ∈ L.groups := List.mem_of_find?_eq_some hg1
  have hkeys : (g1.members.map (fun u => ((u, 0) : UserId × Int))).map Prod.fst = g1.members := by
    simp [List.map_map, Function.comp_def]
  have hzero : ((g1.members.map (fun u => ((u, 0) : UserId × Int))).map Prod.snd).sum = 0 := by
    simp [List.map_map, Function.comp_def]
  refine ⟨(L.entries.filter (fun e => e.groupId = g.id)).foldl applyEntry
    (g1.members.map (fun u => (u, 0))), by simp only [computeBalances, hg1], ?_⟩
  rw [foldl_applyEntry_sum]
  · exact hzero
  · rw [hkeys]; exact h1 g1 hg1mem
  · intro e he
    rw [hkeys]
    simp only [List.mem_filter, decide_eq_true_eq] at he
    obtain ⟨g2, hg2, hok⟩ := h2 e he.1
    rw [he.2, hg1] at hg2
    cases hg2
    exact hok

/-- C1: for every sequence of requests (groups created, members added, expenses and
settlements recorded, each request accepted or rejected by the ledger's validation) and every
group of the resulting store, `computeBalances` returns a net-balance map, and its values sum
to exactly 0. -/
theorem C1_balances_sum_to_zero (commands : List Command) (g : Group)
    (hg : g ∈ (Ledger.run commands).groups) :
    ∃ balances, computeBalances (Ledger.run commands) g.id = .ok balances ∧
      (balances.map Prod.snd).sum = 0 :=
  computeBalances_sum_zero _ (wellFormed_run commands) g hg

/-- Witness of C1 (Scenarios A and B): Alice, Bob and Carol (ids 1, 2, 3); Alice pays 1000
split three ways, Bob settles 300 with Alice; the balances 366, -33, -333 sum to 0. -/
theorem C1_balances_sum_to_zero_witness :
    computeBalances (Ledger.run [.createGroup "G" 1, .addMember 0 2, .addMember 0 3,
        .recordExpense 0 1 1000 "dinner" [1, 2, 3] 10, .recordSettlement 0 2 1 300 11]) 0 =
      .ok [(1, 366), (2, -33), (3, -333)] ∧
    ∃ balances, computeBalances (Ledger.run [.createGroup "G" 1, .addMember 0 2,
        .addMember 0 3, .recordExpense 0 1 1000 "dinner" [1, 2, 3] 10,
        .recordSettlement 0 2 1 300 11]) 0 = .ok balances ∧
      (balances.map Prod.snd).sum = 0 :=
  ⟨by decide, C1_balances_sum_to_zero [.createGroup "G" 1, .addMember 0 2, .addMember 0 3,
      .recordExpense 0 1 1000 "dinner" [1, 2, 3] 10, .recordSettlement 0 2 1 300 11]
      ⟨0, "G", [1, 2, 3]⟩ (by decide)⟩

/-! ## DebtSimplifier -/

theorem applySettlement_eq_map (M : Balances) (payer payee : UserId) (a : Int) :
    applySettlement M payer payee a =
      M.map (fun p => (p.1, p.2 + (if p.1 = payer then a else 0) +
        (if p.1 = payee then -a else 0))) := by
  simp only [applySettlement, debit, credit, List.map_map]
  apply List.map_congr_left
  intro p _
  obtain ⟨u, b⟩ := p
  simp only [Function.comp]
  by_cases h1 : u = payer
  · by_cases h2 : u = payee
    · rw [if_pos h1, if_pos h2, if_pos h1, if_pos h2]
    · rw [if_pos h1, if_neg h2, if_pos h1, if_neg h2, add_zero]
  · by_cases h2 : u = payee
    · rw [if_neg h1, if_pos h2, if_neg h1, if_pos h2, add_zero]
    · rw [if_neg h1, if_neg h2, if_neg h1, if_neg h2, add_zero, add_zero]

theorem applySettlement_keys (M : Balances) (payer payee : UserId) (a : Int) :
    (applySettlement M payer payee a).map Prod.fst = M.map Prod.fst := by
  simp only [applySettlement, debit, credit_keys]

theorem applySettlement_sum (M : Balances) (payer payee : UserId) (a : Int)
    (hnd : (M.map Prod.fst).Nodup) (h1 : payer ∈ M.map Prod.fst)
    (h2 : payee ∈ M.map Prod.fst) :
    ((applySettlement M payer payee a).map Prod.snd).sum = (M.map Prod.snd).sum := by
  simp only [applySettlement, debit]
  rw [credit_sum _ payee (-a) (by rw [credit_keys]; exact hnd)
    (by rw [credit_keys]; exact h2), credit_sum M payer a hnd h1]
  ring

theorem key_unique (M : Balances) (hnd : (M.map Prod.fst).Nodup) (p q : UserId × Int)
    (hp : p ∈ M) (hq : q ∈ M) (h : p.1 = q.1) : p = q :=
  List.inj_on_of_nodup_map hnd hp hq h

theorem sum_nonpos_of (M : Balances) (h : ∀ p ∈ M, p.2 ≤ 0) : (M.map Prod.snd).sum ≤ 0 := by
  induction M with
  | nil => simp
  | cons q rest ih =>
    have hq : q.2 ≤ 0 := h q (List.mem_cons_self _ _)
    have := ih (fun p hp => h p (List.mem_cons_of_mem _ hp))
    simp only [List.map_cons, List.sum_cons]
    omega

theorem all_zero_of_nonpos (M : Balances) (hsum : (M.map Prod.snd).sum = 0)
    (h : ∀ p ∈ M, p.2 ≤ 0) : ∀ p ∈ M, p.2 = 0 := by
  induction M with
  | nil => intro p hp; simp at hp
  | cons q rest ih =>
    have hq : q.2 ≤ 0 := h q (List.mem_cons_self _ _)
    have hrest : ∀ p ∈ rest, p.2 ≤ 0 := fun p hp => h p (List.mem_cons_of_mem _ hp)
    have hle : (rest.map Prod.snd).sum ≤ 0 := sum_nonpos_of rest hrest
    simp only [List.map_cons, List.sum_cons] at hsum
    intro p hp
    rcases List.mem_cons.mp hp with h1 | h1
    · subst h1; omega
    · exact ih (by omega) hrest p h1

theorem all_zero_of_nonneg (M : Balances) (hsum : (M.map Prod.snd).sum = 0)
    (h : ∀ p ∈ M, 0 ≤ p.2) : ∀ p ∈ M, p.2 = 0 := by
  induction M with
  | nil => intro p hp; simp at hp
  | cons q rest ih =>
    have hq : 0 ≤ q.2 := h q (List.mem_cons_self _ _)
    have hrest : ∀ p ∈ rest, 0 ≤ p.2 := fun p hp => h p (List.mem_cons_of_mem _ hp)
    have hle : 0 ≤ (rest.map Prod.snd).sum := by
      apply List.sum_nonneg
      intro x hx
      obtain ⟨p, hp, rfl⟩ := List.mem_map.mp hx
      exact hrest p hp
    simp only [List.map_cons, List.sum_cons] at hsum
    intro p hp
    rcases List.mem_cons.mp hp with h1 | h1
    · subst h1; omega
    · exact ih (by omega) hrest p h1

/-- When one of the work lists is empty, every balance of the map is already zero. -/
theorem SettleInv.settled (M : Balances) (cs ds : List (UserId × Int))
    (inv : SettleInv M cs ds) (h : cs = [] ∨ ds = []) : ∀ p ∈ M, p.2 = 0 := by
  rcases h with h | h
  · subst h
    apply all_zero_of_nonpos M inv.total
    intro p hp
    by_contra hc
    have := inv.pos p hp (by omega)
    simp at this
  · subst h
    apply all_zero_of_nonneg M inv.total
    intro p hp
    by_contra hc
    have := inv.neg p hp (by omega)
    simp at this

theorem SettleInv.perm (M : Balances) (cs ds cs2 ds2 : List (UserId × Int))
    (inv : SettleInv M cs ds) (hc : cs2.Perm cs) (hd : ds2.Perm ds) : SettleInv M cs2 ds2 where
  keys := inv.keys
  total := inv.total
  cred := fun p hp => inv.cred p (hc.mem_iff.mp hp)
  debt := fun p hp => inv.debt p (hd.mem_iff.mp hp)
  pos := fun p hp h => hc.mem_iff.mpr (inv.pos p hp h)
  neg := fun p hp h => hd.mem_iff.mpr (inv.neg p hp h)
  credNodup := hc.nodup_iff.mpr inv.credNodup
  debtNodup := hd.nodup_iff.mpr inv.debtNodup

/-- One round of the greedy matching: the transfer is positive, goes between two different
members of the map, and the loop invariant holds again for the map with the transfer applied
as a settlement; at least one party has left the work lists. -/
theorem SettleInv.step (M : Balances) (c d : UserId × Int) (cs ds : List (UserId × Int))
    (inv : SettleInv M (c :: cs) (d :: ds)) :
    0 < min c.2 |d.2| ∧ c.1 ≠ d.1 ∧ c.1 ∈ M.map Prod.fst ∧ d.1 ∈ M.map Prod.fst ∧
    SettleInv (applySettlement M d.1 c.1 (min c.2 |d.2|))
      (if c.2 - min c.2 |d.2| = 0 then cs else (c.1, c.2 - min c.2 |d.2|) :: cs)
      (if d.2 + min c.2 |d.2| = 0 then ds else (d.1, d.2 + min c.2 |d.2|) :: ds) ∧
    (if c.2 - min c.2 |d.2| = 0 then cs else (c.1, c.2 - min c.2 |d.2|) :: cs).length +
      (if d.2 + min c.2 |d.2| = 0 then ds else (d.1, d.2 + min c.2 |d.2|) :: ds).length ≤
      cs.length + ds.length + 1 := by
  obtain ⟨hcpos, hcM⟩ := inv.cred c (List.mem_cons_self _ _)
  obtain ⟨hdneg, hdM⟩ := inv.debt d (List.mem_cons_self _ _)
  have habs : |d.2| = -d.2 := abs_of_neg hdneg
  rw [habs]
  generalize ht : min c.2 (-d.2) = t
  have htpos : 0 < t := by rw [← ht]; exact lt_min hcpos (by omega)
  have htc : t ≤ c.2 := by rw [← ht]; exact min_le_left _ _
  have htd : t ≤ -d.2 := by rw [← ht]; exact min_le_right _ _
  have hteq : t = c.2 ∨ t = -d.2 := by
    rw [← ht]
    rcases min_choice c.2 (-d.2) with h | h
    · left; exact h
    · right; exact h
  have hne : c.1 ≠ d.1 := by
    intro h
    have := key_unique M inv.keys c d hcM hdM h
    rw [this] at hcpos
    omega
  have hcs : ∀ p ∈ cs, p.1 ≠ c.1 ∧ p.1 ≠ d.1 := by
    intro p hp
    obtain ⟨hppos, hpM⟩ := inv.cred p (List.mem_cons_of_mem _ hp)
    constructor
    · intro h
      have := key_unique M inv.keys p c hpM hcM h
      subst this
      exact (List.nodup_cons.mp inv.credNodup).1 hp
    · intro h
      have := key_unique M inv.keys p d hpM hdM h
      subst this
      omega
  have hds : ∀ p ∈ ds, p.1 ≠ c.1 ∧ p.1 ≠ d.1 := by
    intro p hp
    obtain ⟨hpneg, hpM⟩ := inv.debt p (List.mem_cons_of_mem _ hp)
    constructor
    · intro h
      have := key_unique M inv.keys p c hpM hcM h
      subst this
      omega
    · intro h
      have := key_unique M inv.keys p d hpM hdM h
      subst this
      exact (List.nodup_cons.mp inv.debtNodup).1 hp
  have hFc : (c.1, c.2 - t) ∈ applySettlement M d.1 c.1 t := by
    rw [applySettlement_eq_map]
    refine List.mem_map.mpr ⟨c, hcM, ?_⟩
    rw [if_neg hne, if_pos rfl]
    congr 1
    ring
  have hFd : (d.1, d.2 + t) ∈ applySettlement M d.1 c.1 t := by
    rw [applySettlement_eq_map]
    refine List.mem_map.mpr ⟨d, hdM, ?_⟩
    rw [if_pos rfl, if_neg (Ne.symm hne)]
    congr 1
    ring
  have hFo : ∀ p ∈ M, p.1 ≠ c.1 → p.1 ≠ d.1 → p ∈ applySettlement M d.1 c.1 t := by
    intro p hp h1 h2
    rw [applySettlement_eq_map]
    refine List.mem_map.mpr ⟨p, hp, ?_⟩
    rw [if_neg h2, if_neg h1, add_zero, add_zero]
  have hback : ∀ q ∈ applySettlement M d.1 c.1 t,
      q = (c.1, c.2 - t) ∨ q = (d.1, d.2 + t) ∨ (q ∈ M ∧ q.1 ≠ c.1 ∧ q.1 ≠ d.1) := by
    intro q hq
    rw [applySettlement_eq_map] at hq
    obtain ⟨p, hp, rfl⟩ := List.mem_map.mp hq
    by_cases h1 : p.1 = c.1
    · left
      have := key_unique M inv.keys p c hp hcM h1
      subst this
      rw [if_neg hne, if_pos rfl]
      congr 1
      ring
    · by_cases h2 : p.1 = d.1
      · right; left
        have := key_unique M inv.keys p d hp hdM h2
        subst this
        rw [if_pos rfl, if_neg (Ne.symm hne)]
        congr 1
        ring
      · right; right
        rw [if_neg h2, if_neg h1, add_zero, add_zero]
        exact ⟨hp, h1, h2⟩
  refine ⟨htpos, hne, List.mem_map_of_mem _ hcM, List.mem_map_of_mem _ hdM, ?_, ?_⟩
  · constructor
    · rw [applySettlement_keys]; exact inv.keys
    · rw [applySettlement_sum M d.1 c.1 t inv.keys (List.mem_map_of_mem _ hdM)
        (List.mem_map_of_mem _ hcM)]
      exact inv.total
    · intro p hp
      split at hp
      · exact ⟨(inv.cred p (List.mem_cons_of_mem _ hp)).1,
          hFo p (inv.cred p (List.mem_cons_of_mem _ hp)).2 (hcs p hp).1 (hcs p hp).2⟩
      · rename_i hz
        rcases List.mem_cons.mp hp with h | h
        · subst h
          exact ⟨by simp only; omega, hFc⟩
        · exact ⟨(inv.cred p (List.mem_cons_of_mem _ h)).1,
            hFo p (inv.cred p (List.mem_cons_of_mem _ h)).2 (hcs p h).1 (hcs p h).2⟩
    · intro p hp
      split at hp
      · exact ⟨(inv.debt p (List.mem_cons_of_mem _ hp)).1,
          hFo p (inv.debt p (List.mem_cons_of_mem _ hp)).2 (hds p hp).1 (hds p hp).2⟩
      · rename_i hz
        rcases List.mem_cons.mp hp with h | h
        · subst h
          exact ⟨by simp only; omega, hFd⟩
        · exact ⟨(inv.debt p (List.mem_cons_of_mem _ h)).1,
            hFo p (inv.debt p (List.mem_cons_of_mem _ h)).2 (hds p h).1 (hds p h).2⟩
    · intro q hq hqpos
      rcases hback q hq with h | h | ⟨hqM, h1, h2⟩
      · subst h
        simp only at hqpos
        rw [if_neg (by omega)]
        exact List.mem_cons_self _ _
      · subst h
        simp only at hqpos
        omega
      · have hmem := inv.pos q hqM hqpos
        rcases List.mem_cons.mp hmem with h | h
        · subst h; exact absurd rfl h1
        · split
          · exact h
          · exact List.mem_cons_of_mem _ h
    · intro q hq hqneg
      rcases hback q hq with h | h | ⟨hqM, h1, h2⟩
      · subst h
        simp only at hqneg
        omega
      · subst h
        simp only at hqneg
        rw [if_neg (by omega)]
        exact List.mem_cons_self _ _
      · have hmem := inv.neg q hqM hqneg
        rcases List.mem_cons.mp hmem with h | h
        · subst h; exact absurd rfl h2
        · split
          · exact h
          · exact List.mem_cons_of_mem _ h
    · split
      · exact (List.nodup_cons.mp inv.credNodup).2
      · refine List.nodup_cons.mpr ⟨?_, (List.nodup_cons.mp inv.credNodup).2⟩
        intro h
        exact (hcs _ h).1 rfl
    · split
      · exact (List.nodup_cons.mp inv.debtNodup).2
      · refine List.nodup_cons.mpr ⟨?_, (List.nodup_cons.mp inv.debtNodup).2⟩
        intro h
        exact (hds _ h).2 rfl
  · rcases hteq with h | h
    · rw [if_pos (by omega)]
      split
      · omega
      · simp only [List.length_cons]; omega
    · rw [if_pos (by omega : d.2 + t = 0)]
      split
      · omega
      · simp only [List.length_cons]; omega

theorem settleLoop_nil_left (fuel : Nat) (ds : List (UserId × Int)) :
    settleLoop fuel [] ds = [] := by
  cases fuel <;> rfl

theorem settleLoop_nil_right (fuel : Nat) (cs : List (UserId × Int)) :
    settleLoop fuel cs [] = [] := by
  cases fuel with
  | zero => rfl
  | succ n => cases cs <;> rfl

theorem settleLoop_cons (fuel : Nat) (c d : UserId × Int) (cs ds : List (UserId × Int)) :
    settleLoop (fuel + 1) (c :: cs) (d :: ds) =
      { fromUser := d.1, toUser := c.1, amount := min c.2 |d.2| } ::
        settleLoop fuel
          ((if c.2 - min c.2 |d.2| = 0 then cs
            else (c.1, c.2 - min c.2 |d.2|) :: cs).insertionSort creditorOrder)
          ((if d.2 + min c.2 |d.2| = 0 then ds
            else (d.1, d.2 + min c.2 |d.2|) :: ds).insertionSort debtorOrder) := rfl

/-- The invariant after one round, for the re-sorted work lists. -/
theorem SettleInv.next (M : Balances) (c d : UserId × Int) (cs ds : List (UserId × Int))
    (inv : SettleInv M (c :: cs) (d :: ds)) :
    SettleInv (applySettlement M d.1 c.1 (min c.2 |d.2|))
      ((if c.2 - min c.2 |d.2| = 0 then cs
        else (c.1, c.2 - min c.2 |d.2|) :: cs).insertionSort creditorOrder)
      ((if d.2 + min c.2 |d.2| = 0 then ds
        else (d.1, d.2 + min c.2 |d.2|) :: ds).insertionSort debtorOrder) ∧
    ((if c.2 - min c.2 |d.2| = 0 then cs
        else (c.1, c.2 - min c.2 |d.2|) :: cs).insertionSort creditorOrder).length +
      ((if d.2 + min c.2 |d.2| = 0 then ds
        else (d.1, d.2 + min c.2 |d.2|) :: ds).insertionSort debtorOrder).length ≤
      cs.length + ds.length + 1 := by
  obtain ⟨_, _, _, _, hinv, hlen⟩ := SettleInv.step M c d cs ds inv
  refine ⟨SettleInv.perm _ _ _ _ _ hinv (List.perm_insertionSort _ _)
    (List.perm_insertionSort _ _), ?_⟩
  rw [List.length_insertionSort, List.length_insertionSort]
  exact hlen

/-- With one round of fuel per party, replaying the output of the loop as settlements
leaves every balance of the map at zero. -/
theorem settleLoop_settles (fuel : Nat) :
    ∀ (M : Balances) (cs ds : List (UserId × Int)), SettleInv M cs ds →
      cs.length + ds.length ≤ fuel →
      ∀ p ∈ applySuggestions M (settleLoop fuel cs ds), p.2 = 0 := by
  induction fuel with
  | zero =>
    intro M cs ds inv hlen
    have hcs : cs = [] := List.length_eq_zero.mp (by omega)
    simpa [settleLoop, applySuggestions] using SettleInv.settled M cs ds inv (Or.inl hcs)
  | succ n ih =>
    intro M cs ds inv hlen
    cases cs with
    | nil =>
      rw [settleLoop_nil_left]
      exact SettleInv.settled M [] ds inv (Or.inl rfl)
    | cons c cs =>
      cases ds with
      | nil =>
        rw [settleLoop_nil_right]
        exact SettleInv.settled M (c :: cs) [] inv (Or.inr rfl)
      | cons d ds =>
        rw [settleLoop_cons]
        obtain ⟨hinv, hl⟩ := SettleInv.next M c d cs ds inv
        simp only [applySuggestions, List.foldl_cons]
        simp only [List.length_cons] at hlen
        exact ih _ _ _ hinv (by omega)

/-- Every suggestion the loop emits moves a positive amount between two different members
of the map. -/
theorem settleLoop_sound (fuel : Nat) :
    ∀ (M : Balances) (cs ds : List (UserId × Int)), SettleInv M cs ds →
      ∀ s ∈ settleLoop fuel cs ds,
        s.fromUser ≠ s.toUser ∧ 0 < s.amount ∧
          s.fromUser ∈ M.map Prod.fst ∧ s.toUser ∈ M.map Prod.fst := by
  induction fuel with
  | zero => intro M cs ds _ s hs; simp [settleLoop] at hs
  | succ n ih =>
    intro M cs ds inv s hs
    cases cs with
    | nil => rw [settleLoop_nil_left] at hs; simp at hs
    | cons c cs =>
      cases ds with
      | nil => rw [settleLoop_nil_right] at hs; simp at hs
      | cons d ds =>
        rw [settleLoop_cons] at hs
        obtain ⟨htpos, hne, hcM, hdM, _, _⟩ := SettleInv.step M c d cs ds inv
        rcases List.mem_cons.mp hs with h | h
        · subst h
          exact ⟨Ne.symm hne, htpos, hdM, hcM⟩
        · obtain ⟨hinv, _⟩ := SettleInv.next M c d cs ds inv
          have := ih _ _ _ hinv s h
          rw [applySettlement_keys] at this
          exact this

/-- The loop emits fewer suggestions than there are parties. -/
theorem settleLoop_length (fuel : Nat) :
    ∀ (M : Balances) (cs ds : List (UserId × Int)), SettleInv M cs ds →
      cs ≠ [] → ds ≠ [] → (settleLoop fuel cs ds).length + 1 ≤ cs.length + ds.length := by
  induction fuel with
  | zero =>
    intro M cs ds _ hc hd
    have h1 := List.length_pos.mpr hc
    have h2 := List.length_pos.mpr hd
    simp only [settleLoop, List.length_nil]
    omega
  | succ n ih =>
    intro M cs ds inv hc hd
    cases cs with
    | nil => exact absurd rfl hc
    | cons c cs =>
      cases ds with
      | nil => exact absurd rfl hd
      | cons d ds =>
        rw [settleLoop_cons]
        obtain ⟨hinv, hl⟩ := SettleInv.next M c d cs ds inv
        simp only [List.length_cons]
        generalize hcs1 : ((if c.2 - min c.2 |d.2| = 0 then cs
          else (c.1, c.2 - min c.2 |d.2|) :: cs).insertionSort creditorOrder) = cs1 at hinv hl ⊢
        generalize hds1 : ((if d.2 + min c.2 |d.2| = 0 then ds
          else (d.1, d.2 + min c.2 |d.2|) :: ds).insertionSort debtorOrder) = ds1 at hinv hl ⊢
        by_cases h1 : cs1 = []
        · subst h1
          rw [settleLoop_nil_left]
          simp only [List.length_nil]
          omega
        · by_cases h2 : ds1 = []
          · subst h2
            rw [settleLoop_nil_right]
            simp only [List.length_nil]
            omega
          · have := ih _ cs1 ds1 hinv h1 h2
            omega

theorem applySuggestions_keys (ts : List Suggestion) :
    ∀ M : Balances, (applySuggestions M ts).map Prod.fst = M.map Prod.fst := by
  induction ts with
  | nil => intro M; rfl
  | cons t rest ih =>
    intro M
    simp only [applySuggestions, List.foldl_cons] at ih ⊢
    rw [ih, applySettlement_keys]

theorem length_filter_signs (M : Balances) :
    (M.filter (fun p => 0 < p.2)).length + (M.filter (fun p => p.2 < 0)).length =
      nonzeroCount M := by
  induction M with
  | nil => rfl
  | cons q rest ih =>
    simp only [nonzeroCount, ne_eq] at ih ⊢
    simp only [List.filter_cons]
    rcases lt_trichotomy q.2 0 with h | h | h
    · have h1 : ¬ (0 < q.2) := by omega
      have h2 : q.2 ≠ 0 := by omega
      simp only [h, h1, h2, decide_True, decide_False, if_true, if_false, List.length_cons,
        ne_eq, not_false_eq_true, Bool.false_eq_true]
      omega
    · have h1 : ¬ (0 < q.2) := by omega
      have h2 : ¬ (q.2 < 0) := by omega
      simp only [h, h1, h2, decide_True, decide_False, if_true, if_false, List.length_cons,
        ne_eq, not_true_eq_false, Bool.false_eq_true, lt_self_iff_false]
      omega
    · have h1 : ¬ (q.2 < 0) := by omega
      have h2 : q.2 ≠ 0 := by omega
      simp only [h, h1, h2, decide_True, decide_False, if_true, if_false, List.length_cons,
        ne_eq, not_false_eq_true, Bool.false_eq_true]
      omega

theorem nonzeroCount_le_length (M : Balances) : nonzeroCount M ≤ M.length :=
  List.length_filter_le _ _

/-- The invariant holds when `simplify` enters the loop. -/
theorem SettleInv.initial (M : Balances) (hnd : (M.map Prod.fst).Nodup)
    (hsum : (M.map Prod.snd).sum = 0) :
    SettleInv M ((M.filter (fun p => 0 < p.2)).insertionSort creditorOrder)
      ((M.filter (fun p => p.2 < 0)).insertionSort debtorOrder) where
  keys := hnd
  total := hsum
  cred := by
    intro p hp
    have := (List.perm_insertionSort _ _).mem_iff.mp hp
    simp only [List.mem_filter, decide_eq_true_eq] at this
    exact ⟨this.2, this.1⟩
  debt := by
    intro p hp
    have := (List.perm_insertionSort _ _).mem_iff.mp hp
    simp only [List.mem_filter, decide_eq_true_eq] at this
    exact ⟨this.2, this.1⟩
  pos := by
    intro p hp h
    apply (List.perm_insertionSort _ _).mem_iff.mpr
    simp only [List.mem_filter, decide_eq_true_eq]
    exact ⟨hp, h⟩
  neg := by
    intro p hp h
    apply (List.perm_insertionSort _ _).mem_iff.mpr
    simp only [List.mem_filter, decide_eq_true_eq]
    exact ⟨hp, h⟩
  credNodup := (List.perm_insertionSort _ _).nodup_iff.mpr ((List.Nodup.of_map _ hnd).filter _)
  debtNodup := (List.perm_insertionSort _ _).nodup_iff.mpr ((List.Nodup.of_map _ hnd).filter _)

theorem simplify_eq_loop (balances : Balances) (hsum : (balances.map Prod.snd).sum = 0) :
    simplify balances = .ok (settleLoop balances.length
      ((balances.filter (fun p => 0 < p.2)).insertionSort creditorOrder)
      ((balances.filter (fun p => p.2 < 0)).insertionSort debtorOrder)) := by
  unfold simplify
  rw [if_neg (by simp [hsum])]

theorem eq_zeroed_of_keys_of_zero (l m : Balances) (hk : l.map Prod.fst = m.map Prod.fst)
    (hz : ∀ p ∈ l, p.2 = 0) : l = m.map (fun p => (p.1, 0)) := by
  have h1 : l = l.map (fun p => ((p.1, 0) : UserId × Int)) := by
    conv_lhs => rw [← List.map_id l]
    apply List.map_congr_left
    intro p hp
    have := hz p hp
    obtain ⟨u, b⟩ := p
    simp only at this
    simp [this]
  have h2 : l.map (fun p => ((p.1, 0) : UserId × Int)) =
      (l.map Prod.fst).map (fun u => ((u, 0) : UserId × Int)) := by
    rw [List.map_map]; rfl
  have h3 : m.map (fun p => ((p.1, 0) : UserId × Int)) =
      (m.map Prod.fst).map (fun u => ((u, 0) : UserId × Int)) := by
    rw [List.map_map]; rfl
  rw [h1, h2, h3, hk]

/-- For a zero-sum map `simplify` returns suggestions, and applying them as settlements
leaves the same users with every balance at zero. -/
theorem simplify_settles (balances : Balances)
    (hmap : (balances.map Prod.fst).Nodup) (hsum : (balances.map Prod.snd).sum = 0) :
    ∃ suggestions, simplify balances = .ok suggestions ∧
      (∀ p ∈ applySuggestions balances suggestions, p.2 = 0) ∧
      applySuggestions balances suggestions = balances.map (fun p => (p.1, 0)) := by
  have inv := SettleInv.initial balances hmap hsum
  have hfuel : ((balances.filter (fun p => 0 < p.2)).insertionSort creditorOrder).length +
      ((balances.filter (fun p => p.2 < 0)).insertionSort debtorOrder).length ≤
      balances.length := by
    rw [List.length_insertionSort, List.length_insertionSort, length_filter_signs]
    exact nonzeroCount_le_length balances
  have hz := settleLoop_settles balances.length balances _ _ inv hfuel
  exact ⟨_, simplify_eq_loop balances hsum, hz,
    eq_zeroed_of_keys_of_zero _ _ (applySuggestions_keys _ _) hz⟩

/-- C7: for every net-balance map (each user once) whose values sum to zero, `simplify`
returns a list of suggestions, and applying each triple (from, to, amount) as a settlement
leaves the same users with every balance equal to 0; on the map Alice +300, Carol -300 (ids 1
and 3) the output is exactly the one suggestion "Carol pays Alice 300". -/
theorem C7_simplify_settles_every_balance (balances : Balances)
    (hmap : (balances.map Prod.fst).Nodup) (hsum : (balances.map Prod.snd).sum = 0) :
    ∃ suggestions, simplify balances = .ok suggestions ∧
      (∀ p ∈ applySuggestions balances suggestions, p.2 = 0) ∧
      applySuggestions balances suggestions = balances.map (fun p => (p.1, 0)) ∧
      simplify [(1, 300), (3, -300)] = .ok [{ fromUser := 3, toUser := 1, amount := 300 }] := by
  obtain ⟨ts, h1, h2, h3⟩ := simplify_settles balances hmap hsum
  exact ⟨ts, h1, h2, h3, by decide⟩

/-- Witness of C7: Alice is owed 600, Bob and Carol owe 300 each, Dan is settled. -/
theorem C7_simplify_settles_every_balance_witness :
    simplify [(1, 600), (2, -300), (3, -300), (4, 0)] =
      .ok [{ fromUser := 2, toUser := 1, amount := 300 },
        { fromUser := 3, toUser := 1, amount := 300 }] ∧
    ∃ suggestions, simplify [(1, 600), (2, -300), (3, -300), (4, 0)] = .ok suggestions ∧
      applySuggestions [(1, 600), (2, -300), (3, -300), (4, 0)] suggestions =
        [(1, 0), (2, 0), (3, 0), (4, 0)] :=
  ⟨by decide,
   (C7_simplify_settles_every_balance [(1, 600), (2, -300), (3, -300), (4, 0)]
      (by decide) (by decide)).imp (fun _ h => ⟨h.1, h.2.2.1⟩)⟩

/-- C8, refuted as stated: for the zero-sum map of one member with balance 0, `simplify`
emits no transaction, and 0 is not at most (number of nonzero balances) - 1 = -1. -/
theorem C8_counterexample :
    ([(1, 0)] : Balances).map Prod.snd = [0] ∧
    simplify [(1, 0)] = .ok [] ∧
    nonzeroCount [(1, 0)] = 0 ∧
    ¬ ((([] : List Suggestion).length : Int) ≤ (nonzeroCount [(1, 0)] : Int) - 1) := by
  refine ⟨by decide, by decide, by decide, by decide⟩

/-- C8, amended: for every zero-sum net-balance map (each user once), `simplify` never emits
a transaction with from == to, never emits a transaction whose amount is 0 (amounts are
positive), and when some balance is nonzero the number of transactions is at most (number of
members with nonzero balance) - 1; when every balance is zero it emits none. -/
theorem C8_simplify_output_shape (balances : Balances)
    (hmap : (balances.map Prod.fst).Nodup) (hsum : (balances.map Prod.snd).sum = 0) :
    ∃ suggestions, simplify balances = .ok suggestions ∧
      (∀ t ∈ suggestions, t.fromUser ≠ t.toUser ∧ t.amount ≠ 0 ∧ 0 < t.amount) ∧
      (nonzeroCount balances = 0 → suggestions = []) ∧
      (0 < nonzeroCount balances → suggestions.length + 1 ≤ nonzeroCount balances) := by
  have inv := SettleInv.initial balances hmap hsum
  have hlen := length_filter_signs balances
  refine ⟨_, simplify_eq_loop balances hsum, ?_, ?_, ?_⟩
  · intro t ht
    obtain ⟨h1, h2, _, _⟩ := settleLoop_sound _ balances _ _ inv t ht
    exact ⟨h1, by omega, h2⟩
  · intro h0
    have : (balances.filter (fun p => 0 < p.2)).insertionSort creditorOrder = [] := by
      apply List.length_eq_zero.mp
      rw [List.length_insertionSort]
      omega
    rw [this, settleLoop_nil_left]
  · intro hpos
    have hnz : ¬ ∀ p ∈ balances, p.2 = 0 := by
      intro hall
      have : balances.filter (fun p => p.2 ≠ 0) = [] := by
        apply List.filter_eq_nil_iff.mpr
        intro p hp
        simp [hall p hp]
      simp only [nonzeroCount, this, List.length_nil] at hpos
      omega
    have hc : (balances.filter (fun p => 0 < p.2)).insertionSort creditorOrder ≠ [] :=
      fun h => hnz (SettleInv.settled balances _ _ inv (Or.inl h))
    have hd : (balances.filter (fun p => p.2 < 0)).insertionSort debtorOrder ≠ [] :=
      fun h => hnz (SettleInv.settled balances _ _ inv (Or.inr h))
    have := settleLoop_length balances.length balances _ _ inv hc hd
    rw [List.length_insertionSort, List.length_insertionSort, hlen] at this
    exact this

/-- Witness of C8 (amended): five members with nonzero balances are settled with four
transactions. -/
theorem C8_simplify_output_shape_witness :
    simplify [(1, 600), (2, -300), (3, -300), (4, 500), (5, -500)] =
      .ok [{ fromUser := 5, toUser := 1, amount := 500 },
        { fromUser := 2, toUser := 4, amount := 300 },
        { fromUser := 3, toUser := 4, amount := 200 },
        { fromUser := 3, toUser := 1, amount := 100 }] ∧
    ∃ suggestions, simplify [(1, 600), (2, -300), (3, -300), (4, 500), (5, -500)] =
        .ok suggestions ∧
      ∀ t ∈ suggestions, t.fromUser ≠ t.toUser ∧ t.amount ≠ 0 ∧ 0 < t.amount :=
  ⟨by decide,
   (C8_simplify_output_shape [(1, 600), (2, -300), (3, -300), (4, 500), (5, -500)]
      (by decide) (by decide)).imp (fun _ h => ⟨h.1, h.2.1⟩)⟩

/-! ## Replaying the suggestions through the ledger -/

theorem computeBalances_appendSettlement (L : Ledger) (g : Group) (groupId : GroupId)
    (payer payee : UserId) (amount : Int) (now : Nat) (m : Balances)
    (hg : L.findGroup groupId = some g) (hm : computeBalances L groupId = .ok m)
    (hpos : 0 < amount) (hne : payer ≠ payee) (h1 : payer ∈ g.members)
    (h2 : payee ∈ g.members) :
    (L.appendSettlement groupId payer payee amount now).2.findGroup groupId = some g ∧
    computeBalances (L.appendSettlement groupId payer payee amount now).2 groupId =
      .ok (applySettlement m payer payee amount) ∧
    (L.appendSettlement groupId payer payee amount now).2.entries.length =
      L.entries.length + 1 := by
  have hcond : ¬ (amount ≤ 0 ∨ payer = payee ∨ payer ∉ g.members ∨ payee ∉ g.members) := by
    simp only [not_or, not_not]
    exact ⟨by omega, hne, h1, h2⟩
  have hres : (L.appendSettlement groupId payer payee amount now).2 =
      { L with
        entries := L.entries ++ [.settlement ⟨L.nextId, groupId, payer, payee, amount, now⟩],
        nextId := L.nextId + 1 } := by
    unfold Ledger.appendSettlement
    rw [hg]
    simp only []
    rw [if_neg hcond]
  rw [hres]
  have hfind : ∀ L2 : Ledger, L2.groups = L.groups → L2.findGroup groupId = some g := by
    intro L2 h
    simp only [Ledger.findGroup, h]
    exact hg
  refine ⟨hfind _ rfl, ?_, by simp⟩
  simp only [computeBalances, hg] at hm
  simp only [computeBalances, List.filter_append, List.foldl_append]
  have hfilter : List.filter (fun e : LedgerEntry => decide (e.groupId = groupId))
      [LedgerEntry.settlement ⟨L.nextId, groupId, payer, payee, amount, now⟩] =
      [LedgerEntry.settlement ⟨L.nextId, groupId, payer, payee, amount, now⟩] := by
    simp [LedgerEntry.groupId]
  rw [hfilter]
  simp only [List.foldl_cons, List.foldl_nil, applyEntry]
  injection hm with hm
  have hf2 : (Ledger.mk L.groups (L.entries ++
      [LedgerEntry.settlement ⟨L.nextId, groupId, payer, payee, amount, now⟩])
      (L.nextId + 1)).findGroup groupId = some g := hfind _ rfl
  rw [hf2]
  simp only []
  rw [hm]

theorem computeBalances_recordSuggestions (now : Nat) (g : Group) (groupId : GroupId)
    (suggestions : List Suggestion) :
    ∀ (L : Ledger) (m : Balances), L.findGroup groupId = some g →
      computeBalances L groupId = .ok m →
      (∀ t ∈ suggestions, t.fromUser ≠ t.toUser ∧ 0 < t.amount ∧
        t.fromUser ∈ g.members ∧ t.toUser ∈ g.members) →
      computeBalances (recordSuggestions L groupId suggestions now) groupId =
        .ok (applySuggestions m suggestions) ∧
      (recordSuggestions L groupId suggestions now).entries.length =
        L.entries.length + suggestions.length := by
  induction suggestions with
  | nil => intro L m _ hm _; exact ⟨hm, rfl⟩
  | cons t rest ih =>
    intro L m hg hm hok
    obtain ⟨hne, hpos, h1, h2⟩ := hok t (List.mem_cons_self _ _)
    obtain ⟨hg2, hm2, hl2⟩ := computeBalances_appendSettlement L g groupId t.fromUser
      t.toUser t.amount now m hg hm hpos hne h1 h2
    have := ih _ _ hg2 hm2 (fun t2 ht2 => hok t2 (List.mem_cons_of_mem _ ht2))
    simp only [recordSuggestions, applySuggestions, List.foldl_cons, List.length_cons] at this ⊢
    refine ⟨this.1, ?_⟩
    rw [this.2, hl2]
    omega

theorem foldl_applyEntry_keys (es : List LedgerEntry) :
    ∀ b : Balances, (es.foldl applyEntry b).map Prod.fst = b.map Prod.fst := by
  induction es with
  | nil => intro b; rfl
  | cons e rest ih => intro b; rw [List.foldl_cons, ih, applyEntry_keys]

/-- The suggestions for a group of a well-formed store, recorded through `appendSettlement`,
are all accepted, and afterwards `computeBalances` gives every member the balance 0. -/
theorem replay_suggestions_settles_group (L : Ledger) (hwf : L.WellFormed) (g : Group)
    (hg : g ∈ L.groups) (now : Nat) :
    ∃ balances suggestions, computeBalances L g.id = .ok balances ∧
      simplify balances = .ok suggestions ∧
      (recordSuggestions L g.id suggestions now).entries.length =
        L.entries.length + suggestions.length ∧
      computeBalances (recordSuggestions L g.id suggestions now) g.id =
        .ok (balances.map (fun p => (p.1, 0))) := by
  obtain ⟨m, hm, hsum⟩ := computeBalances_sum_zero L hwf g hg
  have hsome : (L.findGroup g.id).isSome = true := by
    simp only [Ledger.findGroup, List.find?_isSome]
    exact ⟨g, hg, by simp⟩
  obtain ⟨g1, hg1⟩ := Option.isSome_iff_exists.mp hsome
  have hkeys : m.map Prod.fst = g1.members := by
    simp only [computeBalances, hg1] at hm
    injection hm with hm
    rw [← hm, foldl_applyEntry_keys]
    simp [List.map_map, Function.comp_def]
  have hnd : (m.map Prod.fst).Nodup := by
    rw [hkeys]
    exact hwf.1 g1 (List.mem_of_find?_eq_some hg1)
  obtain ⟨ts, hts, _, hzero⟩ := simplify_settles m hnd hsum
  have hsound : ∀ t ∈ ts, t.fromUser ≠ t.toUser ∧ 0 < t.amount ∧
      t.fromUser ∈ g1.members ∧ t.toUser ∈ g1.members := by
    intro t ht
    rw [simplify_eq_loop m hsum] at hts
    injection hts with hts
    rw [← hts] at ht
    have := settleLoop_sound _ m _ _ (SettleInv.initial m hnd hsum) t ht
    rw [hkeys] at this
    exact this
  obtain ⟨h1, h2⟩ := computeBalances_recordSuggestions now g1 g.id ts L m hg1 hm hsound
  exact ⟨m, ts, hm, hts, h2, by rw [h1, hzero]⟩

end Core

/-! ## The headers of every request -/

theorem addExpense_eq_call (env : Browser) (data : ExpenseData) :
    api.addExpense env data = api.call env (.addExpense data) := rfl

theorem settleUp_eq_call (env : Browser) (data : SettleData) :
    api.settleUp env data = api.call env (.settleUp data) := rfl

theorem options_headers_nil (c : ApiCall) : c.options.headers = [] := by
  cases c <;> rfl

/-- The headers of the `fetch` call built for a method of `api`, as a function of the stored
token. -/
theorem fetchCall_headers (token : Option String) (c : ApiCall) :
    (api.fetchCall token c.endpoint c.options).headers =
      (match token with
        | some t =>
          if t ≠ "" then [("Content-Type", "application/json"), ("Authorization", "Bearer " ++ t)]
          else [("Content-Type", "application/json")]
        | none => [("Content-Type", "application/json")]) := by
  simp only [api.fetchCall, api.headers, options_headers_nil]
  cases token with
  | none => rfl
  | some t =>
    by_cases ht : t = ""
    · simp [ht, spreadHeaders]
    · simp [ht, spreadHeaders]

/-- C14: for every browser and every call made through a method of `api` (none of which
passes `options.headers`), `api.request` hands to `fetch` exactly one call: the URL
`API_BASE + endpoint`, the method and body of the options, and the headers
`Content-Type: application/json` followed by `Authorization: Bearer t` when `localStorage`
holds a non-empty token `t`, and the `Content-Type` header alone when it holds no token or
the empty string; what `api.request` returns is the handling of what `fetch` answers to that
call.  So an `Authorization` header is sent exactly when a non-empty token is stored. -/
theorem C14_headers_of_api_calls (env : Browser) (c : ApiCall) :
    api.request env c.endpoint c.options =
      (match env.fetch
          (FetchCall.mk (API_BASE ++ c.endpoint) c.options.method c.options.body
            (match env.token with
              | some t =>
                if t ≠ "" then
                  [("Content-Type", "application/json"), ("Authorization", "Bearer " ++ t)]
                else [("Content-Type", "application/json")]
              | none => [("Content-Type", "application/json")])) with
        | .error e => .error e
        | .ok response => api.handleResponse env.numberToString response) ∧
    api.call env c = api.request env c.endpoint c.options ∧
    (api.fetchCall env.token c.endpoint c.options).headers =
      (match env.token with
        | some t =>
          if t ≠ "" then [("Content-Type", "application/json"), ("Authorization", "Bearer " ++ t)]
          else [("Content-Type", "application/json")]
        | none => [("Content-Type", "application/json")]) ∧
    ((∃ v, ("Authorization", v) ∈ (api.fetchCall env.token c.endpoint c.options).headers) ↔
      ∃ t, env.token = some t ∧ t ≠ "") ∧
    (c.options.headers = []) := by
  have hh := fetchCall_headers env.token c
  have hfc : api.fetchCall env.token c.endpoint c.options =
      FetchCall.mk (API_BASE ++ c.endpoint) c.options.method c.options.body
        (match env.token with
          | some t =>
            if t ≠ "" then
              [("Content-Type", "application/json"), ("Authorization", "Bearer " ++ t)]
            else [("Content-Type", "application/json")]
          | none => [("Content-Type", "application/json")]) := by
    rw [← hh]
    rfl
  refine ⟨?_, rfl, hh, ?_, options_headers_nil c⟩
  · unfold api.request
    rw [hfc]
  · rw [hh]
    cases env.token with
    | none => simp
    | some t =>
      by_cases ht : t = ""
      · simp [ht]
      · simp [ht]

/-- Witness of C14: a server that echoes the headers it is sent sees both headers when the
token `alice-token` is stored, and the `Content-Type` header alone when no token or the empty
string is stored. -/
theorem C14_headers_of_api_calls_witness :
    api.call (echoBrowser (some "alice-token")) (.getGroupDetails 7) =
      .ok (.arr [.str "Content-Type: application/json",
        .str "Authorization: Bearer alice-token"]) ∧
    api.call (echoBrowser none) (.getGroupDetails 7) =
      .ok (.arr [.str "Content-Type: application/json"]) ∧
    api.call (echoBrowser (some "")) (.settleUp ⟨7, .nan, .nan⟩) =
      .ok (.arr [.str "Content-Type: application/json"]) :=
  ⟨(C14_headers_of_api_calls (echoBrowser (some "alice-token")) (.getGroupDetails 7)).1,
   (C14_headers_of_api_calls (echoBrowser none) (.getGroupDetails 7)).1,
   (C14_headers_of_api_calls (echoBrowser (some "")) (.settleUp ⟨7, .nan, .nan⟩)).1⟩

/-! ## The settle form: the payee is a member -/

theorem digitChar_isDecimalDigit (d : Nat) (h : d < 10) :
    isDecimalDigit (Nat.digitChar d) = true ∧ (Nat.digitChar d).toNat - 48 = d := by
  interval_cases d <;> exact ⟨by decide, by decide⟩

theorem toDigitsCore_digits (fuel : Nat) :
    ∀ (n : Nat) (acc : List Char), n < fuel → (∀ c ∈ acc, isDecimalDigit c = true) →
      (∀ c ∈ Nat.toDigitsCore 10 fuel n acc, isDecimalDigit c = true) ∧
      Nat.toDigitsCore 10 fuel n acc ≠ [] ∧
      (Nat.toDigitsCore 10 fuel n acc).foldl (fun a c => 10 * a + (c.toNat - 48)) 0 =
        acc.foldl (fun a c => 10 * a + (c.toNat - 48)) n := by
  induction fuel with
  | zero => intro n acc h; omega
  | succ f ih =>
    intro n acc hn hacc
    have hd := digitChar_isDecimalDigit (n % 10) (Nat.mod_lt _ (by norm_num))
    have hacc2 : ∀ c ∈ Nat.digitChar (n % 10) :: acc, isDecimalDigit c = true := by
      intro c hc
      rcases List.mem_cons.mp hc with h | h
      · rw [h]; exact hd.1
      · exact hacc c h
    unfold Nat.toDigitsCore
    simp only []
    split
    · rename_i h0
      refine ⟨hacc2, List.cons_ne_nil _ _, ?_⟩
      rw [List.foldl_cons, hd.2]
      congr 1
      have := Nat.div_add_mod n 10
      omega
    · rename_i h0
      obtain ⟨h1, h2, h3⟩ := ih (n / 10) (Nat.digitChar (n % 10) :: acc) (by omega) hacc2
      refine ⟨h1, h2, ?_⟩
      rw [h3, List.foldl_cons, hd.2]
      congr 1
      have := Nat.div_add_mod n 10
      omega

/-- The decimal representation of a number is a non-empty run of decimal digits that spells
the number. -/
theorem repr_digits (n : Nat) :
    (∀ c ∈ (Nat.repr n).toList, isDecimalDigit c = true) ∧ (Nat.repr n).toList ≠ [] ∧
      digitsValue (Nat.repr n).toList = n := by
  have := toDigitsCore_digits (n + 1) n [] (by omega) (by simp)
  simpa [Nat.repr, Nat.toDigits, List.asString, digitsValue] using this

/-- On a non-empty run of decimal digits `parseInt` returns the Number nearest to the integer
the digits spell. -/
theorem parseInt_digits (ds : List Char) (hne : ds ≠ [])
    (hd : ∀ c ∈ ds, isDecimalDigit c = true) :
    parseInt (String.mk ds) = toBinary64 false (digitsValue ds) 1 := by
  obtain ⟨c, cs, rfl⟩ := List.exists_cons_of_ne_nil hne
  have hc : isDecimalDigit c = true := hd c (List.mem_cons_self _ _)
  obtain ⟨hw, _, _, _⟩ := digit_not_special c hc
  have htake : (c :: cs).takeWhile isDecimalDigit = c :: cs :=
    List.takeWhile_eq_self_iff.mpr hd
  unfold parseInt
  simp only [String.toList]
  rw [List.dropWhile_cons_of_neg (by simp [hw])]
  rw [takeSign_digit c cs hc]
  simp only []
  split
  · rename_i x rest heq
    have hx : isDecimalDigit x = true := by
      apply hd
      rw [heq]
      simp
    have hx1 : x ≠ 'x' := by rintro rfl; simp [isDecimalDigit] at hx
    have hx2 : x ≠ 'X' := by rintro rfl; simp [isDecimalDigit] at hx
    rw [if_neg (by simp [hx1, hx2])]
    rw [htake]
  · rw [htake]
    simp

/-- The option value of a member whose id is a safe integer is read back by `parseInt` as
that id. -/
theorem parseInt_optionValue (m : Member) (h : m.id < 2 ^ 53) :
    parseInt (optionValue m) = toBinary64 false m.id 1 ∧
      (parseInt (optionValue m)).toRat = some (m.id : ℚ) ∧
      (parseInt (optionValue m)).isInteger = true := by
  obtain ⟨h1, h2, h3⟩ := repr_digits m.id
  have hp : parseInt (optionValue m) = toBinary64 false m.id 1 := by
    have := parseInt_digits (Nat.repr m.id).toList h2 h1
    rw [h3] at this
    exact this
  refine ⟨hp, ?_⟩
  rw [hp]
  rcases Nat.eq_zero_or_pos m.id with h0 | hpos
  · rw [h0]
    simp only [toBinary64, if_true, JSNumber.isInteger, JSNumber.toRat,
      Nat.zero_mod, Nat.cast_zero, mul_zero, zero_mul]
    simp
  · rw [toBinary64_nat false _ hpos h]
    have hlo : 2 ^ ilog2 m.id ≤ m.id := two_pow_ilog2Aux_le _ _ hpos
    have he : ilog2 m.id ≤ 52 := by
      by_contra hc
      have : 2 ^ 53 ≤ 2 ^ ilog2 m.id := Nat.pow_le_pow_right (by norm_num) (by omega)
      omega
    constructor
    · simp only [JSNumber.toRat, Bool.false_eq_true, if_false, one_mul, Option.some.injEq]
      have h2 : ((ilog2 m.id : Int) - 52) = -((52 - ilog2 m.id : Nat) : Int) := by omega
      rw [h2, zpow_neg, zpow_natCast]
      push_cast
      field_simp
    · simp only [JSNumber.isInteger]
      split
      · rfl
      · have : (-((ilog2 m.id : Int) - 52)).toNat = 52 - ilog2 m.id := by omega
        rw [this]
        simp

theorem settle_act_keeps_option (members : List Member) (formData : SettleForm)
    (action : SettleAction)
    (hsel : ∀ v, action = .select v → v ∈ SettleModal.optionValues members)
    (h : formData.to_user_id ∈ SettleModal.optionValues members) :
    (SettleModal.act formData action).to_user_id ∈ SettleModal.optionValues members := by
  cases action with
  | select v => exact hsel v rfl
  | amount v => exact h

theorem foldl_settle_act_keeps_option (members : List Member) (actions : List SettleAction) :
    ∀ formData : SettleForm,
      (∀ v, SettleAction.select v ∈ actions → v ∈ SettleModal.optionValues members) →
      formData.to_user_id ∈ SettleModal.optionValues members →
      (actions.foldl SettleModal.act formData).to_user_id ∈
        SettleModal.optionValues members := by
  induction actions with
  | nil => intro formData _ h; exact h
  | cons a rest ih =>
    intro formData hact h
    rw [List.foldl_cons]
    apply ih
    · intro v hv
      exact hact v (List.mem_cons_of_mem _ hv)
    · apply settle_act_keeps_option members formData a _ h
      intro v hv
      exact hact v (hv ▸ List.mem_cons_self _ _)

/-- C11: with member ids that are safe integers (below `2^53`), starting from the initial form
and after any sequence of choices in the select (each storing the value of one of its options)
and of typed amounts, every record-settlement request that `SettleModal.handleSubmit` sends
has as `to_user_id` the id of one of the group's members: the stored option value is the
decimal string of that member's id and `parseInt` reads it back as that id.  And for every
form state whatever, no request is sent (nothing happens at all) while `to_user_id` is empty
(no member selected) or the amount is empty. -/
theorem C11_payee_is_a_member (members : List Member)
    (hsafe : ∀ m ∈ members, m.id < 2 ^ 53) (actions : List SettleAction)
    (hact : ∀ v, SettleAction.select v ∈ actions → v ∈ SettleModal.optionValues members)
    (env : Browser) (groupId : Nat) :
    (∀ data ∈ sentSettlements (SettleModal.handleSubmit env groupId
        (actions.foldl SettleModal.act SettleModal.initialFormData)),
      ∃ m ∈ members,
        (actions.foldl SettleModal.act SettleModal.initialFormData).to_user_id =
          optionValue m ∧
        data.to_user_id = toBinary64 false m.id 1 ∧
        data.to_user_id.toRat = some (m.id : ℚ)) ∧
    (∀ formData : SettleForm, formData.to_user_id = "" ∨ formData.amount = "" →
      SettleModal.handleSubmit env groupId formData = []) := by
  constructor
  · intro data hd
    have hinv := foldl_settle_act_keeps_option members actions SettleModal.initialFormData
      hact (List.mem_cons_self _ _)
    rw [sentSettlements_handleSubmit] at hd
    split at hd
    · simp at hd
    · rename_i hg
      simp only [List.mem_singleton] at hd
      subst hd
      simp only [SettleModal.optionValues, List.mem_cons, List.mem_map] at hinv
      rcases hinv with h0 | ⟨m, hm, hv⟩
      · exact absurd (Or.inl h0) hg
      · obtain ⟨h1, h2, _⟩ := parseInt_optionValue m (hsafe m hm)
        refine ⟨m, hm, hv.symm, ?_, ?_⟩
        · simp only [SettleModal.requestData, ← hv]
          exact h1
        · simp only [SettleModal.requestData, ← hv]
          exact h2
  · intro formData h
    unfold SettleModal.handleSubmit
    rw [if_pos h]

/-- Witness of C11: Alice and Bob (ids 1 and 2); Bob is chosen and 300 typed; the request
names the payee 2. -/
theorem C11_payee_is_a_member_witness :
    sentSettlements (SettleModal.handleSubmit quietBrowser 7
        ([SettleAction.select "2", .amount "300"].foldl SettleModal.act
          SettleModal.initialFormData)) =
      [SettleModal.requestData 7 ⟨"2", "300"⟩] ∧
    (∃ m ∈ ([⟨1, "Alice"⟩, ⟨2, "Bob"⟩] : List Member),
      (SettleModal.requestData 7 ⟨"2", "300"⟩).to_user_id.toRat = some (m.id : ℚ)) ∧
    SettleModal.handleSubmit quietBrowser 7 ⟨"", "300"⟩ = [] :=
  ⟨by decide,
   (((C11_payee_is_a_member [⟨1, "Alice"⟩, ⟨2, "Bob"⟩] (by decide)
      [SettleAction.select "2", .amount "300"]
      (by
        intro v hv
        simp only [List.mem_cons, SettleAction.select.injEq, List.mem_singleton,
          List.not_mem_nil, or_false, reduceCtorEq] at hv
        subst hv
        decide)
      quietBrowser 7).1 (SettleModal.requestData 7 ⟨"2", "300"⟩) (by decide)).imp
        (fun _ h => ⟨h.1, h.2.2.2⟩)),
   (C11_payee_is_a_member [⟨1, "Alice"⟩, ⟨2, "Bob"⟩] (by decide)
      [SettleAction.select "2", .amount "300"]
      (by
        intro v hv
        simp only [List.mem_cons, SettleAction.select.injEq, List.mem_singleton,
          List.not_mem_nil, or_false, reduceCtorEq] at hv
        subst hv
        decide)
      quietBrowser 7).2 ⟨"", "300"⟩ (Or.inl rfl)⟩

/-! ## What the two request bodies carry -/

theorem fetchCalls_addExpense (env : Browser) (groupId : Nat) (formData : AddExpenseForm) :
    fetchCalls (AddExpenseModal.handleSubmit env groupId formData) =
      if formData.amount = "" ∨ formData.description = "" ∨ formData.split_between.length = 0
      then []
      else [api.fetchCall env.token "/expenses" (RequestInit.mk (some "POST")
        (some (.addExpense (AddExpenseModal.requestData groupId formData))) [])] := by
  unfold AddExpenseModal.handleSubmit
  split
  · rfl
  · simp only []
    cases api.addExpense env (AddExpenseModal.requestData groupId formData) <;>
      simp [fetchCalls]

theorem fetchCalls_settleUp (env : Browser) (groupId : Nat) (formData : SettleForm) :
    fetchCalls (SettleModal.handleSubmit env groupId formData) =
      if formData.to_user_id = "" ∨ formData.amount = "" then []
      else [api.fetchCall env.token "/settle" (RequestInit.mk (some "POST")
        (some (.settleUp (SettleModal.requestData groupId formData))) [])] := by
  unfold SettleModal.handleSubmit
  split
  · rfl
  · simp only []
    cases api.settleUp env (SettleModal.requestData groupId formData) <;>
      simp [fetchCalls]

/-- C12, refuted as stated: neither body has a payer id.  The body of the record-expense
request has the four properties `group_id`, `amount`, `description`, `split_between` and that
of the record-settlement request the three properties `group_id`, `to_user_id`, `amount`; and
whether Alice or Bob is logged in, the same form sends the same body: the two requests differ
only in the `Authorization` header. -/
theorem C12_counterexample :
    (sentExpenses (AddExpenseModal.handleSubmit aliceBrowser 7 ⟨"12", "lunch", [1, 2]⟩)).map
        (fun data => data.properties.map Prod.fst) =
      [["group_id", "amount", "description", "split_between"]] ∧
    (sentSettlements (SettleModal.handleSubmit aliceBrowser 7 ⟨"2", "12"⟩)).map
        (fun data => data.properties.map Prod.fst) =
      [["group_id", "to_user_id", "amount"]] ∧
    (fetchCalls (AddExpenseModal.handleSubmit aliceBrowser 7 ⟨"12", "lunch", [1, 2]⟩)).map
        (fun call => call.body) =
      (fetchCalls (AddExpenseModal.handleSubmit bobBrowser 7 ⟨"12", "lunch", [1, 2]⟩)).map
        (fun call => call.body) ∧
    (fetchCalls (SettleModal.handleSubmit aliceBrowser 7 ⟨"2", "12"⟩)).map
        (fun call => call.body) =
      (fetchCalls (SettleModal.handleSubmit bobBrowser 7 ⟨"2", "12"⟩)).map
        (fun call => call.body) ∧
    (fetchCalls (AddExpenseModal.handleSubmit aliceBrowser 7 ⟨"12", "lunch", [1, 2]⟩)).map
        (fun call => call.headers) =
      [[("Content-Type", "application/json"), ("Authorization", "Bearer alice-token")]] ∧
    (fetchCalls (AddExpenseModal.handleSubmit bobBrowser 7 ⟨"12", "lunch", [1, 2]⟩)).map
        (fun call => call.headers) =
      [[("Content-Type", "application/json"), ("Authorization", "Bearer bob-token")]] := by
  refine ⟨by decide, by decide, by decide, by decide, by decide, by decide⟩

/-- C12, amended: the record-expense request that `AddExpenseModal.handleSubmit` sends is a
POST to `/expenses` whose body carries group id, amount, description and participant ids
(`group_id`, `amount`, `description`, `split_between`), and the record-settlement request that
`SettleModal.handleSubmit` sends is a POST to `/settle` whose body carries group id, payee id
and amount (`group_id`, `to_user_id`, `amount`).  Neither body has a payer id; the sender is
named only by the headers that `api.request` builds from the stored token. -/
theorem C12_request_bodies (env : Browser) (groupId : Nat) (expenseForm : AddExpenseForm)
    (settleForm : SettleForm) :
    (∀ call ∈ fetchCalls (AddExpenseModal.handleSubmit env groupId expenseForm),
      call.url = API_BASE ++ "/expenses" ∧ call.method = some "POST" ∧
      call.headers = api.headers env.token {} ∧
      ∃ data, call.body = some (.addExpense data) ∧
        data.properties =
          [("group_id", .id groupId), ("amount", .number (parseFloat expenseForm.amount)),
            ("description", .text expenseForm.description),
            ("split_between", .ids expenseForm.split_between)]) ∧
    (∀ call ∈ fetchCalls (SettleModal.handleSubmit env groupId settleForm),
      call.url = API_BASE ++ "/settle" ∧ call.method = some "POST" ∧
      call.headers = api.headers env.token {} ∧
      ∃ data, call.body = some (.settleUp data) ∧
        data.properties =
          [("group_id", .id groupId), ("to_user_id", .number (parseInt settleForm.to_user_id)),
            ("amount", .number (parseFloat settleForm.amount))]) := by
  constructor
  · intro call hc
    rw [fetchCalls_addExpense] at hc
    split at hc
    · simp at hc
    · simp only [List.mem_singleton] at hc
      subst hc
      exact ⟨rfl, rfl, rfl, _, rfl, rfl⟩
  · intro call hc
    rw [fetchCalls_settleUp] at hc
    split at hc
    · simp at hc
    · simp only [List.mem_singleton] at hc
      subst hc
      exact ⟨rfl, rfl, rfl, _, rfl, rfl⟩

/-- Witness of C12 (amended): Alice submits the expense form; the one request is a POST to
`/expenses` with her token in the headers. -/
theorem C12_request_bodies_witness :
    fetchCalls (AddExpenseModal.handleSubmit aliceBrowser 7 ⟨"12", "lunch", [1, 2]⟩) =
      [api.fetchCall (some "alice-token") "/expenses" (RequestInit.mk (some "POST")
        (some (.addExpense (AddExpenseModal.requestData 7 ⟨"12", "lunch", [1, 2]⟩))) [])] ∧
    (api.fetchCall (some "alice-token") "/expenses" (RequestInit.mk (some "POST")
        (some (.addExpense (AddExpenseModal.requestData 7 ⟨"12", "lunch", [1, 2]⟩))) [])).url =
      API_BASE ++ "/expenses" :=
  ⟨by decide,
   ((C12_request_bodies aliceBrowser 7 ⟨"12", "lunch", [1, 2]⟩ ⟨"2", "12"⟩).1
      (api.fetchCall (some "alice-token") "/expenses" (RequestInit.mk (some "POST")
        (some (.addExpense (AddExpenseModal.requestData 7 ⟨"12", "lunch", [1, 2]⟩))) []))
      (by decide)).1⟩

/-! ## AuthProvider: token state and storage -/

/-- C13: when `login` gets response data whose `access_token` is a string, it resolves with
that string, the `token` entry of `localStorage` and the provider's `token` state are that
string too, `user` is untouched, and the entry is written (then the state set, then the 100 ms
wait) before `login` resolves; when `api.login` rejects, `login` rejects with the same error
and storage and state are unchanged; after `logout` the entry is absent and `token` and `user`
are both null. -/
theorem C13_token_agrees_with_storage (env : Browser) (st : AuthState)
    (email password : String) :
    (∀ (fields : List (String × Json)) (s : String),
      api.call env (.login ⟨email, password⟩) = .ok (.obj fields) →
      fields.lookup "access_token" = some (.str s) →
      (AuthProvider.login env st email password).result = .ok (some (.str s)) ∧
      (AuthProvider.login env st email password).env.token = some s ∧
      (AuthProvider.login env st email password).state.token = some (.str s) ∧
      (AuthProvider.login env st email password).state.user = st.user ∧
      (AuthProvider.login env st email password).effects =
        [.fetch (api.fetchCall env.token "/login"
            (RequestInit.mk (some "POST") (some (.login ⟨email, password⟩)) [])),
          .setItem "token" s, .setToken (some (.str s)), .setTimeout 100]) ∧
    (∀ e : JSError, api.call env (.login ⟨email, password⟩) = .error e →
      (AuthProvider.login env st email password).result = .error e ∧
      (AuthProvider.login env st email password).env = env ∧
      (AuthProvider.login env st email password).state = st) ∧
    ((AuthProvider.logout env st).env.token = none ∧
      (AuthProvider.logout env st).state.token = none ∧
      (AuthProvider.logout env st).state.user = none) := by
  refine ⟨?_, ?_, ⟨rfl, rfl, rfl⟩⟩
  · intro fields s hcall hfield
    simp only [AuthProvider.login, hcall, Json.get, hfield, storageString, Json.toJSString]
    simp [ApiCall.endpoint, ApiCall.options]
  · intro e hcall
    simp only [AuthProvider.login, hcall]
    simp

/-- Witness of C13: the server answers the login with the token `abc123`; a refused login
leaves the stored token alone. -/
theorem C13_token_agrees_with_storage_witness :
    ((AuthProvider.login loginBrowser (AuthProvider.initialState loginBrowser)
        "a@x.org" "pw").env.token = some "abc123" ∧
      (AuthProvider.login loginBrowser (AuthProvider.initialState loginBrowser)
        "a@x.org" "pw").state.token = some (.str "abc123")) ∧
    (AuthProvider.login refusingBrowser (AuthProvider.initialState refusingBrowser)
        "a@x.org" "pw").env = refusingBrowser :=
  ⟨⟨((C13_token_agrees_with_storage loginBrowser (AuthProvider.initialState loginBrowser)
      "a@x.org" "pw").1 [("access_token", .str "abc123"), ("token_type", .str "bearer")]
      "abc123" rfl rfl).2.1,
    ((C13_token_agrees_with_storage loginBrowser (AuthProvider.initialState loginBrowser)
      "a@x.org" "pw").1 [("access_token", .str "abc123"), ("token_type", .str "bearer")]
      "abc123" rfl rfl).2.2.1⟩,
   ((C13_token_agrees_with_storage refusingBrowser (AuthProvider.initialState refusingBrowser)
      "a@x.org" "pw").2.1 ⟨"Error", "Email already registered"⟩ rfl).2.1⟩

/-! ## AuthScreen: the order of register and login -/

/-- C16: in register mode `AuthScreen.handleSubmit` calls `register` and then `login`, in
that order, with the form's name, email and password; if `register` rejects, `login` is not
called; whenever `register` or `login` rejects, `error` becomes the rejection's message and
`loading` is reset to false; in login mode only `login` is called, `register` never. -/
theorem C16_register_then_login {σ α β : Type}
    (login : σ → String → String → Except JSError α × σ)
    (register : σ → String → String → String → Except JSError β × σ)
    (world : σ) (st : AuthScreenState) :
    (st.isLogin = true →
      (AuthScreen.handleSubmit login register world st).1 =
        [.login st.formData.email st.formData.password] ∧
      (∀ (err : JSError) (w : σ),
        login world st.formData.email st.formData.password = (.error err, w) →
        (AuthScreen.handleSubmit login register world st).2.1.error = err.message ∧
        (AuthScreen.handleSubmit login register world st).2.1.loading = false)) ∧
    (st.isLogin = false →
      (∀ (err : JSError) (w : σ),
        register world st.formData.name st.formData.email st.formData.password =
          (.error err, w) →
        (AuthScreen.handleSubmit login register world st).1 =
          [.register st.formData.name st.formData.email st.formData.password] ∧
        (AuthScreen.handleSubmit login register world st).2.1.error = err.message ∧
        (AuthScreen.handleSubmit login register world st).2.1.loading = false) ∧
      (∀ (b : β) (w : σ),
        register world st.formData.name st.formData.email st.formData.password = (.ok b, w) →
        (AuthScreen.handleSubmit login register world st).1 =
          [.register st.formData.name st.formData.email st.formData.password,
            .login st.formData.email st.formData.password] ∧
        (∀ (err : JSError) (w2 : σ),
          login w st.formData.email st.formData.password = (.error err, w2) →
          (AuthScreen.handleSubmit login register world st).2.1.error = err.message ∧
          (AuthScreen.handleSubmit login register world st).2.1.loading = false))) := by
  constructor
  · intro hmode
    constructor
    · unfold AuthScreen.handleSubmit
      simp only [hmode, if_true]
      split <;> rfl
    · intro err w hl
      unfold AuthScreen.handleSubmit
      simp [hmode, hl]
  · intro hmode
    constructor
    · intro err w hr
      unfold AuthScreen.handleSubmit
      simp [hmode, hr]
    · intro b w hr
      constructor
      · unfold AuthScreen.handleSubmit
        simp only [hmode, Bool.false_eq_true, if_false, hr]
        split <;> rfl
      · intro err w2 hl
        unfold AuthScreen.handleSubmit
        simp [hmode, hr, hl]

/-- Witness of C16: in register mode against a server that refuses the registration, only
`register` is called and the server's message is shown; in login mode against a server that
accepts, only `login` is called. -/
theorem C16_register_then_login_witness :
    (AuthScreen.handleSubmit contextLogin contextRegister
        (refusingBrowser, AuthProvider.initialState refusingBrowser)
        ⟨false, ⟨"Ann", "a@x.org", "pw"⟩, "", false⟩).1 =
      [.register "Ann" "a@x.org" "pw"] ∧
    (AuthScreen.handleSubmit contextLogin contextRegister
        (refusingBrowser, AuthProvider.initialState refusingBrowser)
        ⟨false, ⟨"Ann", "a@x.org", "pw"⟩, "", false⟩).2.1.error =
      "Email already registered" ∧
    (AuthScreen.handleSubmit contextLogin contextRegister
        (loginBrowser, AuthProvider.initialState loginBrowser)
        ⟨true, ⟨"", "a@x.org", "pw"⟩, "", false⟩).1 = [.login "a@x.org" "pw"] :=
  ⟨(((C16_register_then_login contextLogin contextRegister
      (refusingBrowser, AuthProvider.initialState refusingBrowser)
      ⟨false, ⟨"Ann", "a@x.org", "pw"⟩, "", false⟩).2 rfl).1
      ⟨"Error", "Email already registered"⟩
      (refusingBrowser, AuthProvider.initialState refusingBrowser) rfl).1,
   (((C16_register_then_login contextLogin contextRegister
      (refusingBrowser, AuthProvider.initialState refusingBrowser)
      ⟨false, ⟨"Ann", "a@x.org", "pw"⟩, "", false⟩).2 rfl).1
      ⟨"Error", "Email already registered"⟩
      (refusingBrowser, AuthProvider.initialState refusingBrowser) rfl).2.1,
   ((C16_register_then_login contextLogin contextRegister
      (loginBrowser, AuthProvider.initialState loginBrowser)
      ⟨true, ⟨"", "a@x.org", "pw"⟩, "", false⟩).1 rfl).1⟩

/-! ## App: navigation -/

/-- C17: `navigate(view, data)` sets `currentView` to `view` and `sidebarOpen` to false for
every view; it sets `selectedGroupId` to `data` when `view` is `group` and leaves it unchanged
for every other view. -/
theorem C17_navigate (st : AppState) (view : String) (data : Option Nat) :
    (App.navigate st view data).currentView = view ∧
    (App.navigate st view data).sidebarOpen = false ∧
    (view = "group" → (App.navigate st view data).selectedGroupId = data) ∧
    (view ≠ "group" → (App.navigate st view data).selectedGroupId = st.selectedGroupId) := by
  refine ⟨rfl, rfl, ?_, ?_⟩
  · intro h
    simp [App.navigate, h]
  · intro h
    simp [App.navigate, h]

/-- Witness of C17: from the open sidebar with group 3 selected, going to the groups list
keeps the selection and going to group 8 replaces it. -/
theorem C17_navigate_witness :
    (App.navigate ⟨"dashboard", some 3, true⟩ "groups").selectedGroupId = some 3 ∧
    (App.navigate ⟨"dashboard", some 3, true⟩ "group" (some 8)).selectedGroupId = some 8 :=
  ⟨(C17_navigate ⟨"dashboard", some 3, true⟩ "groups" none).2.2.2 (by decide),
   (C17_navigate ⟨"dashboard", some 3, true⟩ "group" (some 8)).2.2.1 rfl⟩

/-! ## Dashboard: the activity shown -/

/-- C18: when both requests of `Dashboard.loadData` resolve and the activity response is an
array of `n` items, the `activity` state afterwards is the array of its first `min(5, n)`
items: a prefix of the response, in the response's order, of at most 5 items, and the whole
response when `n ≤ 5`; `stats` is the dashboard response and `loading` is false. -/
theorem C18_activity_first_five (env : Browser) (st : DashboardState) (dashboardData : Json)
    (items : List Json)
    (hd : api.call env .getDashboard = .ok dashboardData)
    (ha : api.call env .getActivity = .ok (.arr items)) :
    (Dashboard.loadData env st).activity = .array (items.take 5) ∧
    (items.take 5).length = min 5 items.length ∧
    (items.take 5).length ≤ 5 ∧
    (items.take 5) <+: items ∧
    (items.length ≤ 5 → items.take 5 = items) ∧
    (Dashboard.loadData env st).stats = dashboardData ∧
    (Dashboard.loadData env st).loading = false := by
  have h : Dashboard.loadData env st =
      { stats := dashboardData, activity := .array (items.take 5), loading := false } := by
    simp only [Dashboard.loadData, hd, ha, slice05]
  rw [h]
  refine ⟨rfl, List.length_take _ _, ?_, List.take_prefix _ _, ?_, rfl, rfl⟩
  · rw [List.length_take]; exact min_le_left _ _
  · intro hn
    exact List.take_of_length_le hn

/-- Witness of C18: of seven activity items the first five are kept. -/
theorem C18_activity_first_five_witness :
    (Dashboard.loadData activityBrowser Dashboard.initialState).activity =
      .array [.str "a", .str "b", .str "c", .str "d", .str "e"] :=
  (C18_activity_first_five activityBrowser Dashboard.initialState
    (.arr [.str "a", .str "b", .str "c", .str "d", .str "e", .str "f", .str "g"])
    [.str "a", .str "b", .str "c", .str "d", .str "e", .str "f", .str "g"] rfl rfl).1

/-! ## GroupDetail: loading the four responses -/

theorem get_of_ne_null (v : Json) (key : String) (h : v ≠ .null) :
    ∃ p, v.get key = .ok p := by
  cases v with
  | null => exact absurd rfl h
  | bool b => exact ⟨none, rfl⟩
  | num n => exact ⟨none, rfl⟩
  | str s => exact ⟨none, rfl⟩
  | arr items => exact ⟨none, rfl⟩
  | obj fields => exact ⟨fields.lookup key, rfl⟩

/-- C15, refuted as stated.  On a reload of group 7 in which all four requests resolve but
the net-owe response is the body `null`, `group` and `expenses` are replaced while `netOwe`
and `suggestions` keep their old values: the update is partial, and `netOwe` is not `[]`.
And on a load of group 8, whose net-owe response is `{"net_owe": 0, ...}`, `netOwe` becomes
`[]` although `net_owe` is present in the response. -/
theorem C15_counterexample :
    api.call nullNetOweBrowser (.getGroupNetOwe 7) = .ok .null ∧
    (GroupDetail.loadData nullNetOweBrowser 7 loadedGroupDetail).group =
      .obj [("net_owe", .num (.finite false 0 (-1074))),
        ("transactions", .arr [.num (.finite false 4503599627370496 (-52))])] ∧
    (GroupDetail.loadData nullNetOweBrowser 7 loadedGroupDetail).netOwe =
      .arr [.str "old row"] ∧
    (GroupDetail.loadData nullNetOweBrowser 7 loadedGroupDetail).suggestions =
      .arr [.str "old suggestion"] ∧
    api.call nullNetOweBrowser (.getGroupNetOwe 8) =
      .ok (.obj [("net_owe", .num (.finite false 0 (-1074))),
        ("transactions", .arr [.num (.finite false 4503599627370496 (-52))])]) ∧
    (GroupDetail.loadData nullNetOweBrowser 8 loadedGroupDetail).netOwe = .arr [] := by
  refine ⟨rfl, ?_, ?_, ?_, rfl, ?_⟩ <;> rfl

/-- C15, amended: if any of the four requests of `GroupDetail.loadData` rejects, none of
`group`, `expenses`, `netOwe` and `suggestions` is changed; if all four resolve and neither
the net-owe nor the settle-suggestions response is `null`, `group` and `expenses` are set to
the responses, `netOwe` to the response's `net_owe` when that is truthy and to `[]` otherwise
(absent or falsy), and `suggestions` likewise from `transactions`; in every case `loading`
ends false. -/
theorem C15_loadData_commits_or_keeps (env : Browser) (groupId : Nat)
    (st : GroupDetailState) :
    ((∃ e, api.call env (.getGroupDetails groupId) = .error e ∨
          api.call env (.getGroupExpenses groupId) = .error e ∨
          api.call env (.getGroupNetOwe groupId) = .error e ∨
          api.call env (.getSettleSuggestions groupId) = .error e) →
      (GroupDetail.loadData env groupId st).group = st.group ∧
      (GroupDetail.loadData env groupId st).expenses = st.expenses ∧
      (GroupDetail.loadData env groupId st).netOwe = st.netOwe ∧
      (GroupDetail.loadData env groupId st).suggestions = st.suggestions) ∧
    (∀ groupData expensesData netOweData suggestionsData : Json,
      api.call env (.getGroupDetails groupId) = .ok groupData →
      api.call env (.getGroupExpenses groupId) = .ok expensesData →
      api.call env (.getGroupNetOwe groupId) = .ok netOweData →
      api.call env (.getSettleSuggestions groupId) = .ok suggestionsData →
      netOweData ≠ .null → suggestionsData ≠ .null →
      ∃ netOwe transactions, netOweData.get "net_owe" = .ok netOwe ∧
        suggestionsData.get "transactions" = .ok transactions ∧
        (GroupDetail.loadData env groupId st).group = groupData ∧
        (GroupDetail.loadData env groupId st).expenses = expensesData ∧
        (GroupDetail.loadData env groupId st).netOwe =
          (match netOwe with
            | some v => if v.truthy then v else .arr []
            | none => .arr []) ∧
        (GroupDetail.loadData env groupId st).suggestions =
          (match transactions with
            | some v => if v.truthy then v else .arr []
            | none => .arr [])) ∧
    (GroupDetail.loadData env groupId st).loading = false := by
  refine ⟨?_, ?_, ?_⟩
  · rintro ⟨e, h | h | h | h⟩
    · simp [GroupDetail.loadData, h]
    · simp only [GroupDetail.loadData, h]
      cases api.call env (.getGroupDetails groupId) <;> exact ⟨rfl, rfl, rfl, rfl⟩
    · simp only [GroupDetail.loadData, h]
      cases api.call env (.getGroupDetails groupId) <;>
        cases api.call env (.getGroupExpenses groupId) <;> exact ⟨rfl, rfl, rfl, rfl⟩
    · simp only [GroupDetail.loadData, h]
      cases api.call env (.getGroupDetails groupId) <;>
        cases api.call env (.getGroupExpenses groupId) <;>
          cases api.call env (.getGroupNetOwe groupId) <;> exact ⟨rfl, rfl, rfl, rfl⟩
  · intro groupData expensesData netOweData suggestionsData h1 h2 h3 h4 hn hs
    obtain ⟨netOwe, hno⟩ := get_of_ne_null netOweData "net_owe" hn
    obtain ⟨transactions, htr⟩ := get_of_ne_null suggestionsData "transactions" hs
    refine ⟨netOwe, transactions, hno, htr, ?_⟩
    simp only [GroupDetail.loadData, h1, h2, h3, h4, hno, htr]
    refine ⟨trivial, trivial, ?_, ?_⟩
    · cases netOwe <;> rfl
    · cases transactions <;> rfl
  · unfold GroupDetail.loadData
    split
    · split
      · rfl
      · split <;> rfl
    · rfl

/-- Witness of C15 (amended): a first load of group 8, whose four responses are the object
`{"net_owe": 0, "transactions": [1]}`, shows the transactions and an empty net-owe list. -/
theorem C15_loadData_commits_or_keeps_witness :
    ∃ netOwe transactions,
      (Json.obj [("net_owe", .num (.finite false 0 (-1074))),
        ("transactions", .arr [.num (.finite false 4503599627370496 (-52))])]).get "net_owe" =
        .ok netOwe ∧
      (Json.obj [("net_owe", .num (.finite false 0 (-1074))),
        ("transactions", .arr [.num (.finite false 4503599627370496 (-52))])]).get
          "transactions" = .ok transactions ∧
      (GroupDetail.loadData nullNetOweBrowser 8 GroupDetail.initialState).group =
        .obj [("net_owe", .num (.finite false 0 (-1074))),
          ("transactions", .arr [.num (.finite false 4503599627370496 (-52))])] :=
  ((C15_loadData_commits_or_keeps nullNetOweBrowser 8 GroupDetail.initialState).2.1
    (.obj [("net_owe", .num (.finite false 0 (-1074))),
      ("transactions", .arr [.num (.finite false 4503599627370496 (-52))])])
    (.obj [("net_owe", .num (.finite false 0 (-1074))),
      ("transactions", .arr [.num (.finite false 4503599627370496 (-52))])])
    (.obj [("net_owe", .num (.finite false 0 (-1074))),
      ("transactions", .arr [.num (.finite false 4503599627370496 (-52))])])
    (.obj [("net_owe", .num (.finite false 0 (-1074))),
      ("transactions", .arr [.num (.finite false 4503599627370496 (-52))])])
    rfl rfl rfl rfl (by simp) (by simp)).imp
    (fun _ h => h.imp (fun _ h2 => ⟨h2.1, h2.2.1, h2.2.2.1⟩))

end SplitSmart
